import Mathlib

/-!
# Marble texture tiles: `TextureTile::loadRawTile` and `TextureTile::loadTile`

A shallow embedding of `src/lib/TextureTile.cpp`.

* C++ `int` is `Int`; an image dimension, which Qt keeps non-negative, is `Nat`.
  The one `int` addition of the source, `x + 1`, wraps at 32 bits (`addInt`).
* C++ `double` is IEEE binary64: a finite double is the rational it stands
  for, and every division, multiplication and subtraction rounds its exact
  result to the nearest double, ties to even (`roundDouble`).  The exponent
  range is not modelled: the values `loadRawTile` computes from `int`s neither
  overflow nor underflow.  A division by zero, infinite or NaN in the source,
  is `0` here; the theorems about candidates and rectangles assume counts
  that are not zero.
* The conversion `(int)d` is truncation toward zero (`toInt`); a value outside
  the range of `int`, for which C++ leaves the conversion undefined, is kept
  as it is.
* A `QImage` is either null or a pixel buffer with its geometry; the Qt
  operations used by the source (`copy`, `scaled`, `size`, `depth`, ...) are
  modelled after the Qt documentation.
* The signals a tile emits are collected, in order, in a list.
* `exit(-1)` is the outcome `LoadOutcome.fatal`.
-/

namespace Marble

/-! ## Numbers -/

/-- The C++ conversion `(int)d` of a double `d`: truncation toward zero. -/
def toInt (d : ℚ) : Int := Int.tdiv d.num d.den

/-- The values of the C++ type `int` (32 bits). -/
def fitsInt (z : Int) : Prop := -2147483648 ≤ z ∧ z ≤ 2147483647

instance (z : Int) : Decidable (fitsInt z) := by
  unfold fitsInt
  infer_instance

/-- The `int` sum `a + b`, kept in 32 bits: an overflow, undefined in C++,
wraps around as the hardware does. -/
def addInt (a b : Int) : Int := (a + b + 2147483648) % 4294967296 - 2147483648

/-- Rounding to the nearest integer, ties to the even one. -/
def roundHalfEven (q : ℚ) : Int :=
  if q - (⌊q⌋ : ℚ) < 1 / 2 then ⌊q⌋
  else if 1 / 2 < q - (⌊q⌋ : ℚ) then ⌊q⌋ + 1
  else if ⌊q⌋ % 2 = 0 then ⌊q⌋ else ⌊q⌋ + 1

/-- The loop that counts how often `n` can be halved before it is below 2, with
`fuel` iterations left. -/
def floorLog2Fuel : Nat → Nat → Nat
  | 0, _ => 0
  | fuel + 1, n => if 2 ≤ n then floorLog2Fuel fuel (n / 2) + 1 else 0

/-- The position of the leading binary digit of `n`: for `n ≥ 1` the `k` with
`2 ^ k ≤ n < 2 ^ (k + 1)`. -/
def floorLog2 (n : Nat) : Nat := floorLog2Fuel n n

/-- The binary exponent of a rational `q` that is not zero: the `e` with
`2 ^ e ≤ |q| < 2 ^ (e + 1)`; it is the difference of the leading digit
positions of numerator and denominator, or one less. -/
def binaryExponent (q : ℚ) : Int :=
  if (2 : ℚ) ^ ((floorLog2 q.num.natAbs : Int) - (floorLog2 q.den : Int)) ≤ |q| then
    (floorLog2 q.num.natAbs : Int) - (floorLog2 q.den : Int)
  else (floorLog2 q.num.natAbs : Int) - (floorLog2 q.den : Int) - 1

/-- Rounding of an exact value to IEEE binary64, to nearest, ties to even:
with `2 ^ e ≤ |q| < 2 ^ (e + 1)` the doubles near `q` are the multiples of
`2 ^ (e - 52)`, and `q` goes to the nearest of them. -/
def roundDouble (q : ℚ) : ℚ :=
  if q = 0 then 0
  else (roundHalfEven (q / (2 : ℚ) ^ (binaryExponent q - 52)) : ℚ)
    * (2 : ℚ) ^ (binaryExponent q - 52)

/-- The quotient `a / b` of two doubles. -/
def fdiv (a b : ℚ) : ℚ := roundDouble (a / b)

/-- The product `a * b` of two doubles. -/
def fmul (a b : ℚ) : ℚ := roundDouble (a * b)

/-- The difference `a - b` of two doubles. -/
def fsub (a b : ℚ) : ℚ := roundDouble (a - b)

/-! ## Qt value types -/

/-- Qt `QPoint`. -/
structure QPoint where
  x : Int
  y : Int
  deriving DecidableEq, Repr

/-- Qt `QSize`. -/
structure QSize where
  width : Int
  height : Int
  deriving DecidableEq, Repr

/-- Qt `QSize::isEmpty`: either dimension is less than one. -/
def QSize.isEmpty (s : QSize) : Bool := decide (s.width < 1) || decide (s.height < 1)

/-- Qt `QRect`, stored as in Qt by its inclusive corner coordinates. -/
structure QRect where
  x1 : Int
  y1 : Int
  x2 : Int
  y2 : Int
  deriving DecidableEq, Repr

/-- Qt `QRect(const QPoint &topLeft, const QPoint &bottomRight)`. -/
def QRect.ofCorners (topLeft bottomRight : QPoint) : QRect :=
  { x1 := topLeft.x, y1 := topLeft.y, x2 := bottomRight.x, y2 := bottomRight.y }

/-- Qt `QRect::left`. -/
def QRect.left (r : QRect) : Int := r.x1

/-- Qt `QRect::top`. -/
def QRect.top (r : QRect) : Int := r.y1

/-- Qt `QRect::right`. -/
def QRect.right (r : QRect) : Int := r.x2

/-- Qt `QRect::bottom`. -/
def QRect.bottom (r : QRect) : Int := r.y2

/-- Qt `QRect::width`: `x2 - x1 + 1`. -/
def QRect.width (r : QRect) : Int := r.x2 - r.x1 + 1

/-- Qt `QRect::height`: `y2 - y1 + 1`. -/
def QRect.height (r : QRect) : Int := r.y2 - r.y1 + 1

/-- Qt `QRect::isNull`: width and height are both zero. -/
def QRect.isNull (r : QRect) : Bool := decide (r.x2 = r.x1 - 1) && decide (r.y2 = r.y1 - 1)

/-! ## Images -/

/-- The data of a non-null `QImage`: geometry and the byte buffer.  Qt keeps
`bytesPerLine` a multiple of 4 (`QImage.aligned`); the structure does not
enforce it, the theorems that need it assume it. -/
structure QImageData where
  width : Nat
  height : Nat
  depth : Nat
  bytesPerLine : Nat
  bits : List Nat
  deriving DecidableEq, Repr

/-- A `QImage`: `none` is the null image `QImage()`. -/
abbrev QImage := Option QImageData

/-- Bytes of one pixel for a given depth. -/
def bytesPerPixel (depth : Nat) : Nat := depth / 8

/-- The bytes of the pixel at column `px` of scanline `py`. -/
def QImageData.pixelBytes (d : QImageData) (px py : Nat) : List Nat :=
  (List.range (bytesPerPixel d.depth)).map
    (fun k => d.bits.getD (py * d.bytesPerLine + px * bytesPerPixel d.depth + k) 0)

/-- Qt scanlines are 32-bit aligned: `((width * depth + 31) / 32) * 4` bytes. -/
def alignedBytesPerLine (width depth : Nat) : Nat := (width * depth + 31) / 32 * 4

/-- One scanline of a fresh image: the pixels, then zero padding up to the stride. -/
def scanLineOf (width depth : Nat) (pixel : Nat → List Nat) : List Nat :=
  let row := (List.range width).flatMap pixel
  row ++ List.replicate (alignedBytesPerLine width depth - row.length) 0

/-- A fresh image of the given size whose pixel `(px, py)` is `pixel px py`. -/
def QImageData.ofPixels (width height depth : Nat) (pixel : Nat → Nat → List Nat) :
    QImageData :=
  { width := width, height := height, depth := depth,
    bytesPerLine := alignedBytesPerLine width depth,
    bits := (List.range height).flatMap (fun py => scanLineOf width depth (fun px => pixel px py)) }

namespace QImage

/-- Qt `QImage::isNull`. -/
def isNull (img : QImage) : Bool := img.isNone

/-- Qt `QImage::width`; `0` for the null image. -/
def width (img : QImage) : Int :=
  match img with
  | none => 0
  | some d => d.width

/-- Qt `QImage::height`; `0` for the null image. -/
def height (img : QImage) : Int :=
  match img with
  | none => 0
  | some d => d.height

/-- Qt `QImage::depth`; `0` for the null image. -/
def depth (img : QImage) : Int :=
  match img with
  | none => 0
  | some d => d.depth

/-- Qt `QImage::bytesPerLine`; `0` for the null image. -/
def bytesPerLine (img : QImage) : Int :=
  match img with
  | none => 0
  | some d => d.bytesPerLine

/-- Qt `QImage::size`. -/
def size (img : QImage) : QSize := { width := width img, height := height img }

/-- Qt `QImage::copy(const QRect &)`: a null rectangle copies the whole image, an
empty one gives the null image; otherwise the result always has the size of
the rectangle, and pixels outside the source are `0`. -/
def copy (img : QImage) (r : QRect) : QImage :=
  match img with
  | none => none
  | some d =>
    if r.isNull then some d
    else if r.width ≤ 0 ∨ r.height ≤ 0 then none
    else some (QImageData.ofPixels r.width.toNat r.height.toNat d.depth (fun px py =>
      let sx : Int := r.x1 + px
      let sy : Int := r.y1 + py
      if 0 ≤ sx ∧ sx < d.width ∧ 0 ≤ sy ∧ sy < d.height then d.pixelBytes sx.toNat sy.toNat
      else List.replicate (bytesPerPixel d.depth) 0))

/-- Qt `QImage::scaled(const QSize &)` with the default `Qt::IgnoreAspectRatio`
and `Qt::FastTransformation`: the null image for a null source or an empty
size, the image itself when the size is unchanged, otherwise an image of
exactly the requested size sampled from the nearest source pixel. -/
def scaled (img : QImage) (s : QSize) : QImage :=
  match img with
  | none => none
  | some d =>
    if s.isEmpty then none
    else if s = size (some d) then some d
    else some (QImageData.ofPixels s.width.toNat s.height.toNat d.depth (fun px py =>
      d.pixelBytes (px * d.width / s.width.toNat) (py * d.height / s.height.toNat)))

end QImage

/-! ## Pointers into a pixel buffer and jump tables -/

/-- A pointer into a pixel buffer: the buffer it points into and a byte offset
from the start of that buffer. -/
structure Ptr where
  buffer : List Nat
  offset : Nat
  deriving DecidableEq, Repr

/-- Pointer arithmetic `p + n` on a `uchar *`: `n` bytes further. -/
def Ptr.addUChar (p : Ptr) (n : Nat) : Ptr := { p with offset := p.offset + n }

/-- Pointer arithmetic `p + n` on a `uint *`: `n` units of four bytes further. -/
def Ptr.addUInt (p : Ptr) (n : Nat) : Ptr := { p with offset := p.offset + 4 * n }

/-- The byte at offset `k` of a buffer (`0` beyond its end). -/
def byteAt (buffer : List Nat) (k : Nat) : Nat := buffer.getD k 0

/-- The value `*p` of a `uchar *`. -/
def Ptr.readUChar (p : Ptr) : Nat := byteAt p.buffer p.offset

/-- The value `*p` of a `uint *`: four bytes, least significant first. -/
def Ptr.readUInt (p : Ptr) : Nat :=
  byteAt p.buffer p.offset + 256 * byteAt p.buffer (p.offset + 1)
    + 65536 * byteAt p.buffer (p.offset + 2) + 16777216 * byteAt p.buffer (p.offset + 3)

/-- Qt `QImage::bits` and `QImage::scanLine(0)`: the start of the pixel buffer. -/
def QImage.bits (img : QImage) : Ptr :=
  match img with
  | none => { buffer := [], offset := 0 }
  | some d => { buffer := d.bits, offset := 0 }

/-- The loop of `jumpTableFromQImage32`, with `rows` iterations left:
`jumpTable[y] = data; data += bpl;` on a `uint *`. -/
def jumpTableLoop32 (bpl : Nat) : Nat → Ptr → List Ptr
  | 0, _ => []
  | rows + 1, data => data :: jumpTableLoop32 bpl rows (data.addUInt bpl)

/-- The loop of `jumpTableFromQImage8`, with `rows` iterations left:
`jumpTable[y] = data; data += bpl;` on a `uchar *`. -/
def jumpTableLoop8 (bpl : Nat) : Nat → Ptr → List Ptr
  | 0, _ => []
  | rows + 1, data => data :: jumpTableLoop8 bpl rows (data.addUChar bpl)

/-- `jumpTableFromQImage32`: `bpl = img.bytesPerLine() / 4`, one entry per
scanline, starting at `img.scanLine(0)`. -/
def jumpTableFromQImage32 (img : QImage) : List Ptr :=
  jumpTableLoop32 ((QImage.bytesPerLine img).toNat / 4) (QImage.height img).toNat (QImage.bits img)

/-- `jumpTableFromQImage8`: `bpl = img.bytesPerLine()`, one entry per scanline,
starting at `img.bits()`. -/
def jumpTableFromQImage8 (img : QImage) : List Ptr :=
  jumpTableLoop8 (QImage.bytesPerLine img).toNat (QImage.height img).toNat (QImage.bits img)

/-- Reading pixel `(px, py)` of a 32-bit image through a jump table:
`jumpTable[py][px]`. -/
def readThroughTable32 (jumpTable : List Ptr) (px py : Nat) : Option Nat :=
  (jumpTable.get? py).map (fun row => (row.addUInt px).readUInt)

/-- Reading pixel `(px, py)` of an 8-bit image through a jump table:
`jumpTable[py][px]`. -/
def readThroughTable8 (jumpTable : List Ptr) (px py : Nat) : Option Nat :=
  (jumpTable.get? py).map (fun row => (row.addUChar px).readUChar)

/-- Direct, stride-aware indexing of pixel `(px, py)` of a 32-bit image: the four
bytes at byte offset `py * bytesPerLine + 4 * px`. -/
def directPixel32 (d : QImageData) (px py : Nat) : Nat :=
  Ptr.readUInt { buffer := d.bits, offset := py * d.bytesPerLine + 4 * px }

/-- Direct, stride-aware indexing of pixel `(px, py)` of an 8-bit image: the
byte at byte offset `py * bytesPerLine + px`. -/
def directPixel8 (d : QImageData) (px py : Nat) : Nat :=
  Ptr.readUChar { buffer := d.bits, offset := py * d.bytesPerLine + px }

/-! ## Collaborators of the tile -/

/-- Modelled from the spec: the class `TileId` is not part of the sources at
hand; the spec's `TileAddress` is a level, a row and a column. -/
structure TileId where
  zoomLevel : Int
  tileX : Int
  tileY : Int
  deriving DecidableEq, Repr

/-- Modelled from the spec: the class `GeoSceneTexture` is not part of the
sources at hand; the spec's `PyramidDescriptor` has a nominal tile size, a
maximal width and height, and a grid origin (`true` for the upper left). -/
structure GeoSceneTexture where
  tileSize : Nat
  maxWidth : Nat
  maxHeight : Nat
  upperLeftOrigin : Bool
  deriving DecidableEq, Repr

/-- The pure helpers `loadRawTile` calls, defined outside `TextureTile.cpp` and
taken as parameters: `TileLoaderHelper::levelToRow`,
`TileLoaderHelper::levelToColumn`, `TileLoaderHelper::relativeTileFileName`
and `TileId::toString`. -/
structure Helpers where
  levelToRow : Int → Int
  levelToColumn : Int → Int
  relativeTileFileName : GeoSceneTexture → Int → Int → Int → String
  tileIdToString : TileId → String

/-- The local storage as `loadRawTile` sees it: `MarbleDirs::path`,
`QFile::exists` and the decoding constructor `QImage(fileName)`, which gives
the null image for a file that does not decode. -/
structure Storage where
  path : String → String
  fileExists : String → Bool
  loadImage : String → QImage

/-- The signals of `TextureTile`. -/
inductive Signal where
  | downloadTile (relativeUrlString : String) (id : String)
  | tileUpdateDone
  deriving DecidableEq, Repr

/-! ## The tile -/

/-- The members of `TextureTile`; a null pointer is `none`. -/
structure TextureTile where
  jumpTable8 : Option (List Ptr)
  jumpTable32 : Option (List Ptr)
  m_id : TileId
  m_rawtile : QImage
  m_depth : Int
  m_used : Bool
  deriving DecidableEq, Repr

/-- The constructor `TextureTile::TextureTile( TileId const& id )`. -/
def TextureTile.new (id : TileId) : TextureTile :=
  { jumpTable8 := none, jumpTable32 := none, m_id := id, m_rawtile := none,
    m_depth := 0, m_used := false }

/-! ## `TextureTile::loadRawTile` -/

section loadRawTile

variable (hp : Helpers) (st : Storage) (textureLayer : GeoSceneTexture)

/-- The local `origx1 = (double)(x) / (double)( levelToRow( level ) )`. -/
def origx1 (level x : Int) : ℚ := fdiv (x : ℚ) (hp.levelToRow level : ℚ)

/-- The local `origy1 = (double)(y) / (double)( levelToColumn( level ) )`. -/
def origy1 (level y : Int) : ℚ := fdiv (y : ℚ) (hp.levelToColumn level : ℚ)

/-- The local `testx1 = origx1 * (double)( levelToRow( i ) )`. -/
def testx1 (level x i : Int) : ℚ := fmul (origx1 hp level x) (hp.levelToRow i : ℚ)

/-- The local `testy1 = origy1 * (double)( levelToColumn( i ) )`. -/
def testy1 (level y i : Int) : ℚ := fmul (origy1 hp level y) (hp.levelToColumn i : ℚ)

/-- The local `origx2 = (double)(x + 1) / (double)( levelToRow( level ) )`; the
sum `x + 1` is an `int` sum. -/
def origx2 (level x : Int) : ℚ := fdiv (addInt x 1 : ℚ) (hp.levelToRow level : ℚ)

/-- The local `origy2 = (double)(y + 1) / (double)( levelToColumn( level ) )`; the
sum `y + 1` is an `int` sum. -/
def origy2 (level y : Int) : ℚ := fdiv (addInt y 1 : ℚ) (hp.levelToColumn level : ℚ)

/-- The local `testx2 = origx2 * (double)( levelToRow( i ) )`. -/
def testx2 (level x i : Int) : ℚ := fmul (origx2 hp level x) (hp.levelToRow i : ℚ)

/-- The local `testy2 = origy2 * (double)( levelToColumn( i ) )`. -/
def testy2 (level y i : Int) : ℚ := fmul (origy2 hp level y) (hp.levelToColumn i : ℚ)

/-- The local `relfilename`: the relative file name of the candidate tile
`( (int)(testx1), (int)(testy1) )` of level `i`. -/
def relfilename (level x y i : Int) : String :=
  hp.relativeTileFileName textureLayer i (toInt (testx1 hp level x i)) (toInt (testy1 hp level y i))

/-- The local `topleft` for a decoded candidate `temptile` of level `i`. -/
def topleft (level x y i : Int) (temptile : QImage) : QPoint :=
  { x := toInt (fmul (fsub (testx1 hp level x i) (toInt (testx1 hp level x i) : ℚ))
        (QImage.width temptile : ℚ)),
    y := toInt (fmul (fsub (testy1 hp level y i) (toInt (testy1 hp level y i) : ℚ))
        (QImage.height temptile : ℚ)) }

/-- The local `bottomright` for a decoded candidate `temptile` of level `i`. -/
def bottomright (level x y i : Int) (temptile : QImage) : QPoint :=
  { x := toInt (fmul (fsub (testx2 hp level x i) (toInt (testx1 hp level x i) : ℚ))
        (QImage.width temptile : ℚ)) - 1,
    y := toInt (fmul (fsub (testy2 hp level y i) (toInt (testy1 hp level y i) : ℚ))
        (QImage.height temptile : ℚ)) - 1 }

/-- The rectangle `QRect( topleft, bottomright )` handed to `copy`. -/
def cropRect (level x y i : Int) (temptile : QImage) : QRect :=
  QRect.ofCorners (topleft hp level x y i temptile) (bottomright hp level x y i temptile)

/-- The branch `level != i`: `tilesize = temptile.size()`, then
`temptile.copy( QRect( topleft, bottomright ) )` and `.scaled( tilesize )`. -/
def cropAndScale (level x y i : Int) (temptile : QImage) : QImage :=
  let tilesize := QImage.size temptile
  QImage.scaled (QImage.copy temptile (cropRect hp level x y i temptile)) tilesize

/-- What the loop of `loadRawTile` leaves behind: the value of `m_rawtile`, the
signals emitted in order, and the absolute file names handed to
`QFile::exists` in order. -/
structure LoopResult where
  m_rawtile : QImage
  emitted : List Signal
  lookups : List String
  deriving DecidableEq, Repr

/-- The loop `for ( int i = level; i > -1; --i )` of `loadRawTile`, with `n`
iterations left, so that the loop variable is `i = n - 1`; `m_rawtile` is the
image the tile holds when the loop is entered and `m_id` the tile's id. -/
def loadRawTileLoop (m_id : TileId) (m_rawtile : QImage) (level x y : Int) : Nat → LoopResult
  | 0 => { m_rawtile := m_rawtile, emitted := [], lookups := [] }
  | n + 1 =>
    let i : Int := n
    let relfilename := relfilename hp textureLayer level x y i
    let absfilename := st.path relfilename
    if st.fileExists absfilename then
      let temptile := st.loadImage absfilename
      if !QImage.isNull temptile then
        { m_rawtile := if level ≠ i then cropAndScale hp level x y i temptile else temptile,
          emitted := [], lookups := [absfilename] }
      else
        let rest := loadRawTileLoop m_id m_rawtile level x y n
        { rest with lookups := absfilename :: rest.lookups }
    else
      let rest := loadRawTileLoop m_id m_rawtile level x y n
      { rest with
        emitted := Signal.downloadTile relfilename (hp.tileIdToString m_id) :: rest.emitted,
        lookups := absfilename :: rest.lookups }

/-- The result of one call of `loadRawTile`: the tile afterwards, the signals
emitted and the storage lookups made, both in order. -/
structure RawLoad where
  tile : TextureTile
  emitted : List Signal
  lookups : List String
  deriving DecidableEq, Repr

/-- `TextureTile::loadRawTile( GeoSceneTexture *textureLayer, int level, int x, int y )`:
`m_used = true`, the loop from `i = level` down to `0`, then
`m_depth = m_rawtile.depth()`. -/
def loadRawTile (self : TextureTile) (level x y : Int) : RawLoad :=
  let loop := loadRawTileLoop hp st textureLayer self.m_id self.m_rawtile level x y (level + 1).toNat
  { tile := { self with m_used := true, m_rawtile := loop.m_rawtile,
                        m_depth := QImage.depth loop.m_rawtile },
    emitted := loop.emitted, lookups := loop.lookups }

end loadRawTile

/-! ## `TextureTile::loadTile` -/

/-- How a call of `loadTile` ends: with `exit(-1)`, the tile being as it was at
that point, or by returning, with the signals emitted. -/
inductive LoadOutcome where
  | fatal (tile : TextureTile)
  | done (tile : TextureTile) (emitted : List Signal)
  deriving DecidableEq, Repr

/-- `TextureTile::loadTile( bool requestTileUpdate )`. -/
def loadTile (self : TextureTile) (requestTileUpdate : Bool) : LoadOutcome :=
  if QImage.isNull self.m_rawtile then LoadOutcome.fatal self
  else
    let emitted := if requestTileUpdate then [Signal.tileUpdateDone] else []
    if self.m_depth = 32 then
      LoadOutcome.done { self with jumpTable32 := some (jumpTableFromQImage32 self.m_rawtile) } emitted
    else if self.m_depth = 8 then
      LoadOutcome.done { self with jumpTable8 := some (jumpTableFromQImage8 self.m_rawtile) } emitted
    else LoadOutcome.fatal self

/-! ## Scenario data -/

/-- Row and column counts that double per level: `count0 * 2 ^ level`. -/
def doubling (count0 : Int) (level : Int) : Int := count0 * 2 ^ level.toNat

/-- An example of the helpers: one tile at level `0`, doubling rows and columns,
file names `level/x/y` and ids `level:x:y`. -/
def exampleHelpers : Helpers :=
  { levelToRow := doubling 1
    levelToColumn := doubling 1
    relativeTileFileName := fun _ level x y => s!"{level}/{x}/{y}"
    tileIdToString := fun id => s!"{id.zoomLevel}:{id.tileX}:{id.tileY}" }

/-- An image of the given size and depth, all bytes `fill`. -/
def plainImage (width height depth fill : Nat) : QImage :=
  some { width := width, height := height, depth := depth,
         bytesPerLine := alignedBytesPerLine width depth,
         bits := List.replicate (alignedBytesPerLine width depth * height) fill }

/-- A storage holding the given files: each a name and what it decodes to. -/
def storageOf (files : List (String × QImage)) : Storage :=
  { path := fun relative => relative
    fileExists := fun name => (files.lookup name).isSome
    loadImage := fun name => (files.lookup name).getD none }

/-- Scenario A: tiles of 256 pixels, and only the single tile of level `0` on
storage. -/
def scenarioA : Storage := storageOf [("0/0/0", plainImage 256 256 32 7)]

/-- The layer of the scenarios: nominal tile size 256. -/
def scenarioLayer : GeoSceneTexture :=
  { tileSize := 256, maxWidth := 2048, maxHeight := 2048, upperLeftOrigin := true }

/-! ## The cascade as the specification words it -/

section cascadeSpec

variable (hp : Helpers) (st : Storage) (textureLayer : GeoSceneTexture)

/-- The file of the candidate tile of level `i` exists on storage. -/
def candidateExists (level x y : Int) (i : Nat) : Bool :=
  st.fileExists (st.path (relfilename hp textureLayer level x y i))

/-- The file of the candidate tile of level `i` exists and decodes to a
non-null image. -/
def candidateDecodes (level x y : Int) (i : Nat) : Bool :=
  candidateExists hp st textureLayer level x y i
    && !QImage.isNull (st.loadImage (st.path (relfilename hp textureLayer level x y i)))

/-- Level `i` is visited by a cascade that starts at level `n - 1`: no level
above `i` and below `n` has a candidate that exists and decodes. -/
def visited (level x y : Int) (n i : Nat) : Bool :=
  decide (∀ j, j < n → i < j → candidateDecodes hp st textureLayer level x y j = false)

/-- The download requests the specification asks of a cascade that starts at
level `n - 1`: in descending level order, one for each visited level whose
candidate file does not exist, with the relative file name of that candidate
and the text of the tile's own id. -/
def expectedRequests (m_id : TileId) (level x y : Int) (n : Nat) : List Signal :=
  ((List.range n).reverse.filter (fun i =>
      visited hp st textureLayer level x y n i && !candidateExists hp st textureLayer level x y i)).map
    (fun i => Signal.downloadTile (relfilename hp textureLayer level x y i) (hp.tileIdToString m_id))

/-- The signal is not a download request for the file stored at `file`. -/
def notRequestFor (file : String) (s : Signal) : Bool :=
  match s with
  | Signal.downloadTile relativeUrlString _ => decide (st.path relativeUrlString ≠ file)
  | Signal.tileUpdateDone => true

end cascadeSpec

/-! ## Sequences of operations and reloads -/

/-- The tile when a call of `loadTile` has ended; for `exit(-1)`, the tile at
that point. -/
def LoadOutcome.tile : LoadOutcome → TextureTile
  | LoadOutcome.fatal tile => tile
  | LoadOutcome.done tile _ => tile

/-- One operation on a tile: a call of `loadRawTile`, with the storage as it is
at that time, or a call of `loadTile`. -/
inductive TileOp where
  | loadRawTile (st : Storage) (textureLayer : GeoSceneTexture) (level x y : Int)
  | loadTile (requestTileUpdate : Bool)

/-- The tile after one operation. -/
def TileOp.apply (hp : Helpers) (self : TextureTile) : TileOp → TextureTile
  | TileOp.loadRawTile st textureLayer level x y =>
    (Marble.loadRawTile hp st textureLayer self level x y).tile
  | TileOp.loadTile requestTileUpdate => (Marble.loadTile self requestTileUpdate).tile

/-- The tile after a sequence of operations. -/
def runOps (hp : Helpers) (self : TextureTile) (ops : List TileOp) : TextureTile :=
  ops.foldl (TileOp.apply hp) self

/-- The scanlines of the image are 32-bit aligned, as Qt keeps them: the
stride is a multiple of 4. -/
def QImage.aligned (img : QImage) : Prop := ∀ d, img = some d → 4 ∣ d.bytesPerLine

/-- Every entry of the row table points into the pixel buffer of the image. -/
def addressesBufferOf (jumpTable : List Ptr) (img : QImage) : Bool :=
  jumpTable.all (fun p => decide (p.buffer = (QImage.bits img).buffer))

/-- A tile after a first load: the 32-bit image `0/0/0` of one column and two
scanlines, all bytes 3, loaded by `loadRawTile` and then `loadTile`. -/
def loadedTile32 : TextureTile :=
  runOps exampleHelpers (TextureTile.new ⟨0, 0, 0⟩)
    [TileOp.loadRawTile (storageOf [("0/0/0", plainImage 1 2 32 3)]) scenarioLayer 0 0 0,
     TileOp.loadTile false]

/-- The levels from `n - 1` down to `i`, in descending order. -/
def levelsDownTo (n i : Nat) : List Nat :=
  (List.range n).reverse.filter (fun j => decide (i ≤ j))

/-! ## Arithmetic of the conversion `(int)d` -/

theorem toInt_intCast (z : Int) : toInt (z : ℚ) = z := by
  simp [toInt]

theorem toInt_of_nonneg {q : ℚ} (h : 0 ≤ q) : toInt q = ⌊q⌋ := by
  unfold toInt
  rw [Rat.floor_def]
  exact Int.tdiv_eq_ediv (Rat.num_nonneg.mpr h) (Int.ofNat_nonneg _)

/-! ## Binary64 arithmetic that is exact -/

theorem addInt_eq (a b : Int) (h : fitsInt (a + b)) : addInt a b = a + b := by
  unfold fitsInt at h
  unfold addInt
  omega

theorem floorLog2Fuel_spec (fuel n : Nat) (hfuel : n ≤ fuel) (hn : 1 ≤ n) :
    2 ^ floorLog2Fuel fuel n ≤ n ∧ n < 2 ^ (floorLog2Fuel fuel n + 1) := by
  induction fuel generalizing n with
  | zero => omega
  | succ fuel ih =>
    unfold floorLog2Fuel
    by_cases h2 : 2 ≤ n
    · rw [if_pos h2]
      obtain ⟨h1, h3⟩ := ih (n / 2) (by omega) (by omega)
      rw [pow_succ, pow_succ]
      rw [pow_succ] at h3
      constructor <;> omega
    · rw [if_neg h2]
      constructor <;> simp <;> omega

theorem floorLog2_spec (n : Nat) (hn : 1 ≤ n) : 2 ^ floorLog2 n ≤ n ∧ n < 2 ^ (floorLog2 n + 1) :=
  floorLog2Fuel_spec n n (le_refl n) hn

/-- The binary exponent is the exponent of the power of two just below `|q|`. -/
theorem binaryExponent_spec (q : ℚ) (hq : q ≠ 0) :
    (2 : ℚ) ^ binaryExponent q ≤ |q| ∧ |q| < (2 : ℚ) ^ (binaryExponent q + 1) := by
  have hnum : 1 ≤ q.num.natAbs := by
    have := Rat.num_ne_zero.mpr hq
    omega
  have hden : 1 ≤ q.den := q.den_pos
  obtain ⟨hn1, hn2⟩ := floorLog2_spec _ hnum
  obtain ⟨hd1, hd2⟩ := floorLog2_spec _ hden
  have habs : |q| = (q.num.natAbs : ℚ) / (q.den : ℚ) := by
    conv_lhs => rw [← Rat.num_div_den q]
    rw [abs_div, Nat.abs_cast, Nat.cast_natAbs, Int.cast_abs]
  have hdq : (0 : ℚ) < (q.den : ℚ) := by exact_mod_cast hden
  have hn1q : (2 : ℚ) ^ (floorLog2 q.num.natAbs : Int) ≤ (q.num.natAbs : ℚ) := by
    rw [zpow_natCast]; exact_mod_cast hn1
  have hn2q : (q.num.natAbs : ℚ) < (2 : ℚ) ^ ((floorLog2 q.num.natAbs : Int) + 1) := by
    have : (q.num.natAbs : ℚ) < (2 : ℚ) ^ (floorLog2 q.num.natAbs + 1) := by exact_mod_cast hn2
    rwa [← zpow_natCast, Nat.cast_add, Nat.cast_one] at this
  have hd1q : (2 : ℚ) ^ (floorLog2 q.den : Int) ≤ (q.den : ℚ) := by
    rw [zpow_natCast]; exact_mod_cast hd1
  have hd2q : (q.den : ℚ) < (2 : ℚ) ^ ((floorLog2 q.den : Int) + 1) := by
    have : (q.den : ℚ) < (2 : ℚ) ^ (floorLog2 q.den + 1) := by exact_mod_cast hd2
    rwa [← zpow_natCast, Nat.cast_add, Nat.cast_one] at this
  have h2 : (2 : ℚ) ≠ 0 := by norm_num
  -- 2 ^ (e0 - 1) ≤ |q| < 2 ^ (e0 + 1)
  have hlow : (2 : ℚ) ^ ((floorLog2 q.num.natAbs : Int) - (floorLog2 q.den : Int) - 1) ≤ |q| := by
    rw [habs, le_div_iff₀ hdq]
    have hpos : (0 : ℚ) < (2 : ℚ) ^ ((floorLog2 q.num.natAbs : Int) - (floorLog2 q.den : Int) - 1) :=
      zpow_pos (by norm_num) _
    calc (2 : ℚ) ^ ((floorLog2 q.num.natAbs : Int) - (floorLog2 q.den : Int) - 1) * (q.den : ℚ)
        ≤ (2 : ℚ) ^ ((floorLog2 q.num.natAbs : Int) - (floorLog2 q.den : Int) - 1)
            * (2 : ℚ) ^ ((floorLog2 q.den : Int) + 1) := mul_le_mul_of_nonneg_left hd2q.le hpos.le
      _ = (2 : ℚ) ^ (floorLog2 q.num.natAbs : Int) := by
          rw [← zpow_add₀ h2]; congr 1; ring
      _ ≤ (q.num.natAbs : ℚ) := hn1q
  have hhigh : |q| < (2 : ℚ) ^ ((floorLog2 q.num.natAbs : Int) - (floorLog2 q.den : Int) + 1) := by
    rw [habs, div_lt_iff₀ hdq]
    have hpos : (0 : ℚ) < (2 : ℚ) ^ ((floorLog2 q.num.natAbs : Int) - (floorLog2 q.den : Int) + 1) :=
      zpow_pos (by norm_num) _
    calc (q.num.natAbs : ℚ) < (2 : ℚ) ^ ((floorLog2 q.num.natAbs : Int) + 1) := hn2q
      _ = (2 : ℚ) ^ ((floorLog2 q.num.natAbs : Int) - (floorLog2 q.den : Int) + 1)
            * (2 : ℚ) ^ (floorLog2 q.den : Int) := by
          rw [← zpow_add₀ h2]; congr 1; ring
      _ ≤ (2 : ℚ) ^ ((floorLog2 q.num.natAbs : Int) - (floorLog2 q.den : Int) + 1) * (q.den : ℚ) :=
          mul_le_mul_of_nonneg_left hd1q hpos.le
  unfold binaryExponent
  split
  · next h => exact ⟨h, hhigh⟩
  · next h =>
    refine ⟨hlow, ?_⟩
    rw [sub_add_cancel]
    exact not_le.mp h

theorem roundHalfEven_intCast (n : Int) : roundHalfEven (n : ℚ) = n := by
  simp [roundHalfEven]

/-- A number `m * 2 ^ e` with `|m| < 2 ^ 53` is a double: rounding leaves it
as it is. -/
theorem roundDouble_exact (m e : Int) (hm : |m| < 2 ^ 53) :
    roundDouble ((m : ℚ) * (2 : ℚ) ^ e) = (m : ℚ) * (2 : ℚ) ^ e := by
  by_cases h0 : m = 0
  · simp [h0, roundDouble]
  have hmq : (m : ℚ) ≠ 0 := by exact_mod_cast h0
  have h2e : (0 : ℚ) < (2 : ℚ) ^ e := zpow_pos (by norm_num) e
  have hq : (m : ℚ) * (2 : ℚ) ^ e ≠ 0 := mul_ne_zero hmq h2e.ne'
  have hpos : 0 < |(m : ℚ) * (2 : ℚ) ^ e| := abs_pos.mpr hq
  have hlow := (binaryExponent_spec _ hq).1
  have habs : |(m : ℚ) * (2 : ℚ) ^ e| < (2 : ℚ) ^ (53 + e) := by
    rw [abs_mul, abs_of_pos h2e, zpow_add₀ (by norm_num : (2 : ℚ) ≠ 0)]
    have : |(m : ℚ)| < (2 : ℚ) ^ (53 : Int) := by
      have h : ((|m| : Int) : ℚ) < ((2 ^ 53 : Int) : ℚ) := by exact_mod_cast hm
      rw [Int.cast_abs] at h
      rw [show ((53 : Int)) = ((53 : ℕ) : Int) from rfl, zpow_natCast]
      exact_mod_cast h
    exact mul_lt_mul_of_pos_right this h2e
  have hL : binaryExponent ((m : ℚ) * (2 : ℚ) ^ e) < 53 + e :=
    (zpow_lt_zpow_iff_right₀ (by norm_num : (1 : ℚ) < 2)).mp (lt_of_le_of_lt hlow habs)
  unfold roundDouble
  rw [if_neg hq]
  generalize binaryExponent ((m : ℚ) * (2 : ℚ) ^ e) = L at hL
  obtain ⟨n, hn⟩ : ∃ n : ℕ, e - (L - 52) = (n : Int) := ⟨(e - (L - 52)).toNat, by omega⟩
  have hdiv : (m : ℚ) * (2 : ℚ) ^ e / (2 : ℚ) ^ (L - 52) = ((m * 2 ^ n : Int) : ℚ) := by
    rw [mul_div_assoc, ← zpow_sub₀ (by norm_num : (2 : ℚ) ≠ 0), hn]
    push_cast
    rw [zpow_natCast]
  rw [hdiv, roundHalfEven_intCast]
  push_cast
  rw [mul_assoc, ← zpow_natCast, ← zpow_add₀ (by norm_num : (2 : ℚ) ≠ 0), ← hn]
  congr 2
  ring

theorem roundDouble_eq_self {q : ℚ} (m e : Int) (hm : |m| < 2 ^ 53)
    (hq : q = (m : ℚ) * (2 : ℚ) ^ e) : roundDouble q = q := by
  rw [hq]
  exact roundDouble_exact m e hm

theorem abs_lt_of_fitsInt {z : Int} (hz : fitsInt z) : |z| < 2 ^ 53 := by
  unfold fitsInt at hz
  rw [abs_lt]
  constructor <;> norm_num <;> omega

/-- For power-of-two counts `2 ^ p` and `2 ^ q` the division and the
multiplication that map a coordinate to another level are exact. -/
theorem fmul_fdiv_pow2 (x R Ri : Int) (p q : Nat) (hR : R = 2 ^ p) (hRi : Ri = 2 ^ q)
    (hx : |x| < 2 ^ 53) :
    fmul (fdiv (x : ℚ) (R : ℚ)) (Ri : ℚ) = (x : ℚ) / (R : ℚ) * (Ri : ℚ) := by
  have hRq : (R : ℚ) = (2 : ℚ) ^ p := by rw [hR]; push_cast; rfl
  have hRiq : (Ri : ℚ) = (2 : ℚ) ^ q := by rw [hRi]; push_cast; rfl
  have hdiv : fdiv (x : ℚ) (R : ℚ) = (x : ℚ) / (R : ℚ) := by
    unfold fdiv
    apply roundDouble_eq_self x (-(p : Int)) hx
    rw [zpow_neg, zpow_natCast, div_eq_mul_inv, hRq]
  rw [hdiv]
  unfold fmul
  apply roundDouble_eq_self x ((q : Int) - (p : Int)) hx
  rw [zpow_sub₀ (by norm_num : (2 : ℚ) ≠ 0), zpow_natCast, zpow_natCast, hRq, hRiq]
  field_simp

/-- The subtraction of the candidate and the multiplication by the width are
exact when the numbers involved stay below `2 ^ 53`. -/
theorem fmul_fsub_window (x k : Int) (D d W : Nat) (hD : D = 2 ^ d)
    (h1 : |x % (D : Int) + k| < 2 ^ 53)
    (h2 : |(x % (D : Int) + k) * (W : Int)| < 2 ^ 53) :
    fmul (fsub (((x + k : Int) : ℚ) / (D : ℚ)) ((x / (D : Int) : Int) : ℚ)) ((W : Int) : ℚ)
      = (((x + k : Int) : ℚ) / (D : ℚ) - ((x / (D : Int) : Int) : ℚ)) * ((W : Int) : ℚ) := by
  have hD0 : (D : ℚ) ≠ 0 := by
    rw [hD]
    positivity
  have hDinv : (2 : ℚ) ^ (-(d : Int)) = (D : ℚ)⁻¹ := by
    rw [zpow_neg, zpow_natCast, hD]
    push_cast
    rfl
  have hx : x = (D : Int) * (x / (D : Int)) + x % (D : Int) := (Int.ediv_add_emod x _).symm
  have hxq : (x : ℚ) = (D : ℚ) * ((x / (D : Int) : Int) : ℚ) + ((x % (D : Int) : Int) : ℚ) := by
    exact_mod_cast hx
  have hfrac : ((x + k : Int) : ℚ) / (D : ℚ) - ((x / (D : Int) : Int) : ℚ)
      = ((x % (D : Int) + k : Int) : ℚ) * (2 : ℚ) ^ (-(d : Int)) := by
    rw [hDinv]
    push_cast
    field_simp
    rw [hxq]
    ring
  have hsub : fsub (((x + k : Int) : ℚ) / (D : ℚ)) ((x / (D : Int) : Int) : ℚ)
      = ((x + k : Int) : ℚ) / (D : ℚ) - ((x / (D : Int) : Int) : ℚ) := by
    unfold fsub
    exact roundDouble_eq_self _ _ h1 hfrac
  rw [hsub]
  unfold fmul
  apply roundDouble_eq_self _ (-(d : Int)) h2
  rw [hfrac]
  push_cast
  ring

/-! ## Exact fractions -/

theorem toInt_intCast_div_natCast (x : Int) (D : Nat) (hx : 0 ≤ x) :
    toInt ((x : ℚ) / (D : ℚ)) = x / (D : Int) := by
  rw [toInt_of_nonneg (by positivity), Rat.floor_intCast_div_natCast]

/-- The fractional part of `x / D`, moved by `k / D` and scaled by a width that
`D` divides, is a whole number of pixels. -/
theorem toInt_window (x k : Int) (D W : Nat) (hD : 0 < D) (hW : D ∣ W) :
    toInt ((((x + k : Int) : ℚ) / (D : ℚ) - ((x / (D : Int) : Int) : ℚ)) * ((W : Int) : ℚ))
      = (x % (D : Int) + k) * ((W : Int) / (D : Int)) := by
  obtain ⟨w, rfl⟩ := hW
  have hD' : (D : ℚ) ≠ 0 := by positivity
  have hDi : (D : Int) ≠ 0 := by positivity
  have hx : x = (D : Int) * (x / (D : Int)) + x % (D : Int) := (Int.ediv_add_emod x D).symm
  have key : (((x + k : Int) : ℚ) / (D : ℚ) - ((x / (D : Int) : Int) : ℚ))
        * (((D * w : Nat) : Int) : ℚ)
      = (((x % (D : Int) + k) * (w : Int) : Int) : ℚ) := by
    have hxq : (x : ℚ) = (D : ℚ) * ((x / (D : Int) : Int) : ℚ) + ((x % (D : Int) : Int) : ℚ) := by
      exact_mod_cast hx
    push_cast
    field_simp
    rw [hxq]
    ring
  rw [key, toInt_intCast]
  congr 1
  push_cast
  rw [Int.mul_ediv_cancel_left _ hDi]

/-- For an `int` `x` that is not negative and a width of at most 32767 pixels,
Qt's limit, the numbers of the window stay far below `2 ^ 53`. -/
theorem window_bounds (x k : Int) (D W : Nat) (hD : 0 < D) (hx0 : 0 ≤ x)
    (hx : x < 2147483647) (hk0 : 0 ≤ k) (hk1 : k ≤ 1) (hW : W ≤ 32767) :
    |x % (D : Int) + k| < 2 ^ 53 ∧ |(x % (D : Int) + k) * (W : Int)| < 2 ^ 53 := by
  have hDi : (0 : Int) < (D : Int) := by exact_mod_cast hD
  have hmod0 := Int.emod_nonneg x hDi.ne'
  have hdiv0 : 0 ≤ (D : Int) * (x / (D : Int)) :=
    Int.mul_nonneg hDi.le (Int.ediv_nonneg hx0 hDi.le)
  have hsum := Int.ediv_add_emod x (D : Int)
  have hmodle : x % (D : Int) ≤ x := by omega
  have hW0 : (0 : Int) ≤ (W : Int) := Int.ofNat_nonneg W
  have hWi : (W : Int) ≤ 32767 := by exact_mod_cast hW
  have hprod : (x % (D : Int) + k) * (W : Int) ≤ 2147483647 * 32767 :=
    mul_le_mul (by omega) hWi hW0 (by norm_num)
  have hprod0 : 0 ≤ (x % (D : Int) + k) * (W : Int) := mul_nonneg (by omega) hW0
  constructor
  · rw [abs_of_nonneg (by omega)]
    norm_num
    omega
  · rw [abs_of_nonneg hprod0]
    norm_num
    omega

/-- With power-of-two counts `2 ^ (a + L)` the doubles that map a coordinate
from level `level` to level `i` are exact and divide by `2 ^ (level - i)`. -/
theorem fmul_fdiv_doubling (f : Int → Int) (a : Nat) (level i : Int)
    (hl : f level = 2 ^ (a + level.toNat)) (hi : f i = 2 ^ (a + i.toNat))
    (hi0 : 0 ≤ i) (hil : i ≤ level) (z : Int) (hz : |z| < 2 ^ 53) :
    fmul (fdiv (z : ℚ) (f level : ℚ)) (f i : ℚ)
      = (z : ℚ) / ((2 ^ (level - i).toNat : Nat) : ℚ) := by
  rw [fmul_fdiv_pow2 z _ _ _ _ hl hi hz, hl, hi]
  have hsplit : level.toNat = i.toNat + (level - i).toNat := by omega
  rw [hsplit]
  push_cast
  field_simp
  ring

/-- Doubles that are not exact, as the source computes them: `15 / 22 * 22`
is just below 15 and converts to 14; with 98 rows at level 1 and 49 at level
0, `x = 2` maps to just below 1 and the left edge in an image 256 pixels wide
is 255; with 112 rows at level 4 and 28 at level 2, `x = 60` and a width of 4
give the edges 0 and 0. -/
theorem roundDouble_examples :
    toInt (fmul (fdiv 15 22) 22) = 14
    ∧ toInt (fmul (fdiv 1 49) 49) = 0
    ∧ toInt (fmul (fdiv 2 98) 49) = 0
    ∧ toInt (fmul (fsub (fmul (fdiv 2 98) 49) 0) 256) = 255
    ∧ toInt (fmul (fsub (fmul (fdiv 3 98) 49) 0) 256) = 384
    ∧ toInt (fmul (fdiv 60 112) 28) = 15
    ∧ toInt (fmul (fsub (fmul (fdiv 60 112) 28) 15) 4) = 0
    ∧ toInt (fmul (fsub (fmul (fdiv 61 112) 28) 15) 4) = 0
    ∧ fdiv 1 3 = 6004799503160661 / 18014398509481984
    ∧ fdiv 1 10 = 3602879701896397 / 36028797018963968 := by
  refine ⟨?_, ?_, ?_, ?_, ?_, ?_, ?_, ?_, ?_, ?_⟩ <;> decide!

/-! ## Cropping and scaling -/

theorem alignedBytesPerLine_dvd (width depth : Nat) : 4 ∣ alignedBytesPerLine width depth :=
  Dvd.intro_left _ rfl

theorem copy_aligned (img : QImage) (r : QRect) (h : QImage.aligned img) :
    QImage.aligned (QImage.copy img r) := by
  cases img with
  | none => intro d hd; simp [QImage.copy] at hd
  | some e =>
    intro d hd
    simp only [QImage.copy] at hd
    split at hd
    · exact h d hd
    · split at hd
      · cases hd
      · cases hd
        exact alignedBytesPerLine_dvd _ _

theorem scaled_aligned (img : QImage) (size : QSize) (h : QImage.aligned img) :
    QImage.aligned (QImage.scaled img size) := by
  cases img with
  | none => intro d hd; simp [QImage.scaled] at hd
  | some e =>
    intro d hd
    simp only [QImage.scaled] at hd
    split at hd
    · cases hd
    · split at hd
      · exact h d hd
      · cases hd
        exact alignedBytesPerLine_dvd _ _

/-- A null rectangle makes `copy` return the whole image, which `scaled` to its
own size returns again: the whole candidate image is the result. -/
theorem cropAndScale_of_null_rect (hp : Helpers) (level x y i : Int) (d : QImageData)
    (hrect : (cropRect hp level x y i (some d)).isNull = true)
    (hwidth : 1 ≤ d.width) (hheight : 1 ≤ d.height) :
    cropAndScale hp level x y i (some d) = some d := by
  have hempty : (QImage.size (some d)).isEmpty = false := by
    simp only [QSize.isEmpty, QImage.size, QImage.width, QImage.height, Bool.or_eq_false_iff,
      decide_eq_false_iff_not, not_lt]
    constructor <;> omega
  simp [cropAndScale, QImage.copy, hrect, QImage.scaled, hempty]

/-- A rectangle that is empty but not null makes `copy`, and so `scaled`,
return the null image. -/
theorem cropAndScale_of_empty_rect (hp : Helpers) (level x y i : Int) (d : QImageData)
    (hrect : (cropRect hp level x y i (some d)).isNull = false)
    (hempty : (cropRect hp level x y i (some d)).width ≤ 0
      ∨ (cropRect hp level x y i (some d)).height ≤ 0) :
    cropAndScale hp level x y i (some d) = none := by
  simp [cropAndScale, QImage.copy, hrect, hempty, QImage.scaled]

/-! ## The loop of `loadRawTile` -/

section loop

variable (hp : Helpers) (st : Storage) (textureLayer : GeoSceneTexture)

/-- For power-of-two counts at the requested level the candidate of that
level is the requested tile itself. -/
theorem relfilename_self (level x y : Int) (p q : Nat)
    (hrow : hp.levelToRow level = 2 ^ p) (hcol : hp.levelToColumn level = 2 ^ q)
    (hx : fitsInt x) (hy : fitsInt y) :
    relfilename hp textureLayer level x y level = hp.relativeTileFileName textureLayer level x y := by
  have hR : (hp.levelToRow level : ℚ) ≠ 0 := by
    rw [hrow]; push_cast; positivity
  have hC : (hp.levelToColumn level : ℚ) ≠ 0 := by
    rw [hcol]; push_cast; positivity
  have htx : testx1 hp level x level = (x : ℚ) := by
    unfold testx1 origx1
    rw [fmul_fdiv_pow2 x _ _ p p hrow hrow (abs_lt_of_fitsInt hx), div_mul_cancel₀ _ hR]
  have hty : testy1 hp level y level = (y : ℚ) := by
    unfold testy1 origy1
    rw [fmul_fdiv_pow2 y _ _ q q hcol hcol (abs_lt_of_fitsInt hy), div_mul_cancel₀ _ hC]
  simp only [relfilename, htx, hty, toInt_intCast]

theorem visited_top (level x y : Int) (n : Nat) :
    visited hp st textureLayer level x y (n + 1) n = true := by
  simp only [visited, decide_eq_true_eq]
  intro j hj hnj
  omega

theorem visited_succ (level x y : Int) (n i : Nat) (hi : i < n) :
    visited hp st textureLayer level x y (n + 1) i
      = (visited hp st textureLayer level x y n i
          && !candidateDecodes hp st textureLayer level x y n) := by
  rw [Bool.eq_iff_iff]
  simp only [visited, decide_eq_true_eq, Bool.and_eq_true, Bool.not_eq_true']
  rw [Nat.forall_lt_succ_right]
  constructor
  · rintro ⟨h1, h2⟩
    exact ⟨h1, h2 hi⟩
  · rintro ⟨h1, h2⟩
    exact ⟨h1, fun _ => h2⟩

theorem expectedRequests_succ (m_id : TileId) (level x y : Int) (n : Nat) :
    expectedRequests hp st textureLayer m_id level x y (n + 1)
      = (if candidateExists hp st textureLayer level x y n then []
          else [Signal.downloadTile (relfilename hp textureLayer level x y n)
                  (hp.tileIdToString m_id)])
        ++ (if candidateDecodes hp st textureLayer level x y n then []
          else expectedRequests hp st textureLayer m_id level x y n) := by
  have hfilter : (List.range n).reverse.filter (fun i =>
        visited hp st textureLayer level x y (n + 1) i
          && !candidateExists hp st textureLayer level x y i)
      = (List.range n).reverse.filter (fun i =>
        (visited hp st textureLayer level x y n i
          && !candidateExists hp st textureLayer level x y i)
          && !candidateDecodes hp st textureLayer level x y n) := by
    apply List.filter_congr
    intro i hi
    rw [List.mem_reverse, List.mem_range] at hi
    rw [visited_succ hp st textureLayer level x y n i hi]
    cases visited hp st textureLayer level x y n i <;>
      cases candidateExists hp st textureLayer level x y i <;> simp
  unfold expectedRequests
  rw [List.range_succ, List.reverse_append, List.reverse_singleton, List.singleton_append,
    List.filter_cons, visited_top, hfilter]
  cases hE : candidateExists hp st textureLayer level x y n <;>
    cases hD : candidateDecodes hp st textureLayer level x y n <;> simp

/-- The signals emitted by the loop are the download requests the
specification asks for. -/
theorem loadRawTileLoop_emitted (m_id : TileId) (m_rawtile : QImage) (level x y : Int) (n : Nat) :
    (loadRawTileLoop hp st textureLayer m_id m_rawtile level x y n).emitted
      = expectedRequests hp st textureLayer m_id level x y n := by
  induction n with
  | zero => simp [loadRawTileLoop, expectedRequests]
  | succ n ih =>
    rw [expectedRequests_succ]
    simp only [loadRawTileLoop, candidateExists, candidateDecodes]
    by_cases hE : st.fileExists (st.path (relfilename hp textureLayer level x y n)) = true
    · by_cases hN :
          QImage.isNull (st.loadImage (st.path (relfilename hp textureLayer level x y n))) = true
      · simp [hE, hN, ih]
      · simp [hE, hN]
    · simp [hE, ih]

theorem expectedRequests_length_of_absent (m_id : TileId) (level x y : Int) (n : Nat)
    (habsent : ∀ i, i < n → candidateExists hp st textureLayer level x y i = false) :
    (expectedRequests hp st textureLayer m_id level x y n).length = n := by
  induction n with
  | zero => simp [expectedRequests]
  | succ n ih =>
    have hE := habsent n (Nat.lt_succ_self n)
    have hD : candidateDecodes hp st textureLayer level x y n = false := by
      simp [candidateDecodes, hE]
    rw [expectedRequests_succ, hE, hD]
    simp [ih (fun i hi => habsent i (Nat.lt_succ_of_lt hi)), Nat.add_comm]

/-- For power-of-two counts at the requested level and at level `i` and a
request that is not negative, the candidate of level `i` is the floor of the
exactly mapped origin. -/
theorem relfilename_floor (level x y i : Int) (p q p2 q2 : Nat)
    (hrow : hp.levelToRow level = 2 ^ p) (hrowi : hp.levelToRow i = 2 ^ q)
    (hcol : hp.levelToColumn level = 2 ^ p2) (hcoli : hp.levelToColumn i = 2 ^ q2)
    (hx0 : 0 ≤ x) (hy0 : 0 ≤ y) (hx : fitsInt x) (hy : fitsInt y) :
    relfilename hp textureLayer level x y i
      = hp.relativeTileFileName textureLayer i
          ⌊(x : ℚ) / (hp.levelToRow level : ℚ) * (hp.levelToRow i : ℚ)⌋
          ⌊(y : ℚ) / (hp.levelToColumn level : ℚ) * (hp.levelToColumn i : ℚ)⌋ := by
  have hx' : (0 : ℚ) ≤ (x : ℚ) := by exact_mod_cast hx0
  have hy' : (0 : ℚ) ≤ (y : ℚ) := by exact_mod_cast hy0
  have hR : ∀ (R : Int) (n : Nat), R = 2 ^ n → (0 : ℚ) ≤ (R : ℚ) := by
    intro R n h
    rw [h]; push_cast; positivity
  unfold relfilename testx1 testy1 origx1 origy1
  rw [fmul_fdiv_pow2 x _ _ p q hrow hrowi (abs_lt_of_fitsInt hx),
    fmul_fdiv_pow2 y _ _ p2 q2 hcol hcoli (abs_lt_of_fitsInt hy),
    toInt_of_nonneg (mul_nonneg (div_nonneg hx' (hR _ _ hrow)) (hR _ _ hrowi)),
    toInt_of_nonneg (mul_nonneg (div_nonneg hy' (hR _ _ hcol)) (hR _ _ hcoli))]

/-- Two storages that differ in one file only, absent in `st` and present but
undecodable in `st2`: the loop keeps the same image and makes the same
lookups, and with `st2` it emits the requests it emits with `st` except those
for that file. -/
theorem loadRawTileLoop_undecodable (st2 : Storage) (file : String)
    (hpath : ∀ name, st2.path name = st.path name)
    (habsent : st.fileExists file = false)
    (hpresent : st2.fileExists file = true) (hundecodable : st2.loadImage file = none)
    (hexists : ∀ name, name ≠ file → st2.fileExists name = st.fileExists name)
    (hload : ∀ name, name ≠ file → st2.loadImage name = st.loadImage name)
    (m_id : TileId) (m_rawtile : QImage) (level x y : Int) (n : Nat) :
    (loadRawTileLoop hp st2 textureLayer m_id m_rawtile level x y n).m_rawtile
      = (loadRawTileLoop hp st textureLayer m_id m_rawtile level x y n).m_rawtile
    ∧ (loadRawTileLoop hp st2 textureLayer m_id m_rawtile level x y n).lookups
      = (loadRawTileLoop hp st textureLayer m_id m_rawtile level x y n).lookups
    ∧ (loadRawTileLoop hp st2 textureLayer m_id m_rawtile level x y n).emitted
      = (loadRawTileLoop hp st textureLayer m_id m_rawtile level x y n).emitted.filter
          (notRequestFor st file) := by
  induction n with
  | zero => simp [loadRawTileLoop]
  | succ n ih =>
    obtain ⟨ih1, ih2, ih3⟩ := ih
    simp only [loadRawTileLoop, hpath]
    by_cases hfile : st.path (relfilename hp textureLayer level x y n) = file
    · simp [hfile, habsent, hpresent, hundecodable, QImage.isNull, ih1, ih2, ih3, notRequestFor]
    · rw [hexists _ hfile, hload _ hfile]
      by_cases hE : st.fileExists (st.path (relfilename hp textureLayer level x y n)) = true
      · by_cases hN :
            QImage.isNull (st.loadImage (st.path (relfilename hp textureLayer level x y n))) = true
        · simp [hE, hN, ih1, ih2, ih3]
        · simp [hE, hN]
      · simp [hE, ih1, ih2, ih3, notRequestFor, hfile]

/-- When no candidate below level `n` exists and decodes, the loop leaves
`m_rawtile` as it found it. -/
theorem loadRawTileLoop_exhausted (m_id : TileId) (m_rawtile : QImage) (level x y : Int)
    (n : Nat) (hnone : ∀ i, i < n → candidateDecodes hp st textureLayer level x y i = false) :
    (loadRawTileLoop hp st textureLayer m_id m_rawtile level x y n).m_rawtile = m_rawtile := by
  induction n with
  | zero => simp [loadRawTileLoop]
  | succ n ih =>
    have hD := hnone n (Nat.lt_succ_self n)
    have ih' := ih (fun i hi => hnone i (Nat.lt_succ_of_lt hi))
    simp only [candidateDecodes, candidateExists, Bool.and_eq_false_iff,
      Bool.not_eq_false'] at hD
    simp only [loadRawTileLoop]
    by_cases hE : st.fileExists (st.path (relfilename hp textureLayer level x y n)) = true
    · have hN : QImage.isNull
          (st.loadImage (st.path (relfilename hp textureLayer level x y n))) = true := by
        rcases hD with hD | hD
        · rw [hD] at hE; cases hE
        · exact hD
      simp [hE, hN, ih']
    · simp [hE, ih']

/-- The image the loop starts from matters only when the cascade is exhausted:
the signals and the lookups do not depend on it, and the image left behind is
either the start image, for both starts, or the same image for both. -/
theorem loadRawTileLoop_initial (m_id : TileId) (m_rawtile other : QImage) (level x y : Int)
    (n : Nat) :
    (loadRawTileLoop hp st textureLayer m_id other level x y n).emitted
      = (loadRawTileLoop hp st textureLayer m_id m_rawtile level x y n).emitted
    ∧ (loadRawTileLoop hp st textureLayer m_id other level x y n).lookups
      = (loadRawTileLoop hp st textureLayer m_id m_rawtile level x y n).lookups
    ∧ (((loadRawTileLoop hp st textureLayer m_id m_rawtile level x y n).m_rawtile = m_rawtile
          ∧ (loadRawTileLoop hp st textureLayer m_id other level x y n).m_rawtile = other)
        ∨ (loadRawTileLoop hp st textureLayer m_id other level x y n).m_rawtile
          = (loadRawTileLoop hp st textureLayer m_id m_rawtile level x y n).m_rawtile) := by
  induction n with
  | zero => simp [loadRawTileLoop]
  | succ n ih =>
    obtain ⟨ih1, ih2, ih3⟩ := ih
    simp only [loadRawTileLoop]
    by_cases hE : st.fileExists (st.path (relfilename hp textureLayer level x y n)) = true
    · by_cases hN :
          QImage.isNull (st.loadImage (st.path (relfilename hp textureLayer level x y n))) = true
      · simp only [hE, hN, if_true, Bool.not_true, Bool.false_eq_true, if_false, ih1, ih2,
          true_and]
        exact ih3
      · simp [hE, hN]
    · simp only [hE, Bool.false_eq_true, if_false, ih1, ih2, true_and]
      exact ih3

theorem levelsDownTo_self (i : Nat) : levelsDownTo i i = [] := by
  unfold levelsDownTo
  rw [List.filter_eq_nil_iff]
  intro j hj
  rw [List.mem_reverse, List.mem_range] at hj
  simp only [decide_eq_true_eq]
  omega

theorem levelsDownTo_succ (n i : Nat) (hi : i ≤ n) :
    levelsDownTo (n + 1) i = n :: levelsDownTo n i := by
  unfold levelsDownTo
  rw [List.range_succ, List.reverse_append, List.reverse_singleton, List.singleton_append,
    List.filter_cons]
  simp [hi]

/-- When level `i` is the greatest level below `n` whose candidate exists and
decodes, the loop stops there: the image comes from that candidate, and the
lookups and the download requests are those of the levels from `n - 1` down
to `i`. -/
theorem loadRawTileLoop_finest (m_id : TileId) (m_rawtile : QImage) (level x y : Int)
    (n i : Nat) (hi : i < n)
    (hdecodes : candidateDecodes hp st textureLayer level x y i = true)
    (habove : ∀ j, i < j → j < n → candidateDecodes hp st textureLayer level x y j = false) :
    loadRawTileLoop hp st textureLayer m_id m_rawtile level x y n
      = { m_rawtile :=
            if level ≠ (i : Int) then
              cropAndScale hp level x y i
                (st.loadImage (st.path (relfilename hp textureLayer level x y i)))
            else st.loadImage (st.path (relfilename hp textureLayer level x y i))
          emitted :=
            ((levelsDownTo n i).filter
                (fun j => !candidateExists hp st textureLayer level x y j)).map
              (fun j => Signal.downloadTile (relfilename hp textureLayer level x y j)
                (hp.tileIdToString m_id))
          lookups :=
            (levelsDownTo n i).map (fun j => st.path (relfilename hp textureLayer level x y j)) } := by
  induction n with
  | zero => omega
  | succ n ih =>
    rw [levelsDownTo_succ n i (by omega)]
    by_cases hin : i = n
    · subst hin
      have hd := hdecodes
      simp only [candidateDecodes, candidateExists, Bool.and_eq_true, Bool.not_eq_true'] at hd
      obtain ⟨hE, hN⟩ := hd
      simp only [loadRawTileLoop, levelsDownTo_self, candidateExists]
      simp [hE, hN]
    · have hlt : i < n := by omega
      have ih' := ih hlt (fun j hj hjn => habove j hj (by omega))
      have hD := habove n hlt (Nat.lt_succ_self n)
      simp only [candidateDecodes, candidateExists, Bool.and_eq_false_iff,
        Bool.not_eq_false'] at hD
      simp only [loadRawTileLoop]
      by_cases hE : st.fileExists (st.path (relfilename hp textureLayer level x y n)) = true
      · have hN : QImage.isNull
            (st.loadImage (st.path (relfilename hp textureLayer level x y n))) = true := by
          rcases hD with hD | hD
          · rw [hD] at hE; cases hE
          · exact hD
        simp [hE, hN, ih', candidateExists]
      · simp [hE, ih', candidateExists]

/-- The image the loop leaves behind is 32-bit aligned when the image it
starts from and every image on storage are. -/
theorem loadRawTileLoop_aligned (m_id : TileId) (m_rawtile : QImage) (level x y : Int)
    (n : Nat) (hstart : QImage.aligned m_rawtile)
    (hstorage : ∀ name, QImage.aligned (st.loadImage name)) :
    QImage.aligned
      (loadRawTileLoop hp st textureLayer m_id m_rawtile level x y n).m_rawtile := by
  induction n with
  | zero => exact hstart
  | succ n ih =>
    simp only [loadRawTileLoop]
    split
    · split
      · split
        · exact scaled_aligned _ _ (copy_aligned _ _ (hstorage _))
        · exact hstorage _
      · exact ih
    · exact ih

end loop

/-! ## Jump tables -/

theorem jumpTableLoop8_length (bpl rows : Nat) (data : Ptr) :
    (jumpTableLoop8 bpl rows data).length = rows := by
  induction rows generalizing data with
  | zero => rfl
  | succ rows ih => simp [jumpTableLoop8, ih]

theorem jumpTableLoop32_length (bpl rows : Nat) (data : Ptr) :
    (jumpTableLoop32 bpl rows data).length = rows := by
  induction rows generalizing data with
  | zero => rfl
  | succ rows ih => simp [jumpTableLoop32, ih]

theorem jumpTableLoop8_get (bpl rows : Nat) (data : Ptr) (y : Nat) (hy : y < rows) :
    (jumpTableLoop8 bpl rows data).get? y = some (data.addUChar (y * bpl)) := by
  induction rows generalizing data y with
  | zero => omega
  | succ rows ih =>
    cases y with
    | zero => simp [jumpTableLoop8, Ptr.addUChar]
    | succ y =>
      simp only [jumpTableLoop8, List.get?_cons_succ]
      rw [ih (data.addUChar bpl) y (by omega)]
      simp only [Ptr.addUChar, Option.some.injEq, Ptr.mk.injEq, true_and]
      ring

theorem jumpTableLoop32_get (bpl rows : Nat) (data : Ptr) (y : Nat) (hy : y < rows) :
    (jumpTableLoop32 bpl rows data).get? y = some (data.addUInt (y * bpl)) := by
  induction rows generalizing data y with
  | zero => omega
  | succ rows ih =>
    cases y with
    | zero => simp [jumpTableLoop32, Ptr.addUInt]
    | succ y =>
      simp only [jumpTableLoop32, List.get?_cons_succ]
      rw [ih (data.addUInt bpl) y (by omega)]
      simp only [Ptr.addUInt, Option.some.injEq, Ptr.mk.injEq, true_and]
      ring

theorem jumpTableFromQImage8_get (d : QImageData) (y : Nat) (hy : y < d.height) :
    (jumpTableFromQImage8 (some d)).get? y
      = some { buffer := d.bits, offset := y * d.bytesPerLine } := by
  simp only [jumpTableFromQImage8, QImage.bytesPerLine, QImage.height, QImage.bits,
    Int.toNat_ofNat]
  rw [jumpTableLoop8_get _ _ _ y hy]
  simp [Ptr.addUChar]

theorem jumpTableFromQImage32_get (d : QImageData) (y : Nat) (hy : y < d.height) :
    (jumpTableFromQImage32 (some d)).get? y
      = some { buffer := d.bits, offset := 4 * (y * (d.bytesPerLine / 4)) } := by
  simp only [jumpTableFromQImage32, QImage.bytesPerLine, QImage.height, QImage.bits,
    Int.toNat_ofNat]
  rw [jumpTableLoop32_get _ _ _ y hy]
  simp [Ptr.addUInt]

theorem jumpTableLoop8_buffer (bpl rows : Nat) (data p : Ptr)
    (hp : p ∈ jumpTableLoop8 bpl rows data) : p.buffer = data.buffer := by
  induction rows generalizing data with
  | zero => simp [jumpTableLoop8] at hp
  | succ rows ih =>
    simp only [jumpTableLoop8, List.mem_cons] at hp
    rcases hp with rfl | hp
    · rfl
    · have h := ih (data.addUChar bpl) hp
      exact h

theorem jumpTableLoop32_buffer (bpl rows : Nat) (data p : Ptr)
    (hp : p ∈ jumpTableLoop32 bpl rows data) : p.buffer = data.buffer := by
  induction rows generalizing data with
  | zero => simp [jumpTableLoop32] at hp
  | succ rows ih =>
    simp only [jumpTableLoop32, List.mem_cons] at hp
    rcases hp with rfl | hp
    · rfl
    · have h := ih (data.addUInt bpl) hp
      exact h

theorem addressesBufferOf_jumpTable8 (img : QImage) :
    addressesBufferOf (jumpTableFromQImage8 img) img = true := by
  simp only [addressesBufferOf, List.all_eq_true, decide_eq_true_eq]
  intro p hp
  exact jumpTableLoop8_buffer _ _ _ p hp

theorem addressesBufferOf_jumpTable32 (img : QImage) :
    addressesBufferOf (jumpTableFromQImage32 img) img = true := by
  simp only [addressesBufferOf, List.all_eq_true, decide_eq_true_eq]
  intro p hp
  exact jumpTableLoop32_buffer _ _ _ p hp

/-! ## The usage flag -/

theorem loadTile_m_used (self : TextureTile) (requestTileUpdate : Bool) :
    (loadTile self requestTileUpdate).tile.m_used = self.m_used := by
  unfold loadTile
  by_cases hnull : QImage.isNull self.m_rawtile = true
  · simp [hnull, LoadOutcome.tile]
  · by_cases h32 : self.m_depth = 32
    · simp [hnull, h32, LoadOutcome.tile]
    · by_cases h8 : self.m_depth = 8
      · simp [hnull, h8, LoadOutcome.tile]
      · simp [hnull, h32, h8, LoadOutcome.tile]

theorem apply_m_used (hp : Helpers) (self : TextureTile) (op : TileOp)
    (hused : self.m_used = true) : (TileOp.apply hp self op).m_used = true := by
  cases op with
  | loadRawTile st textureLayer level x y => rfl
  | loadTile requestTileUpdate =>
    simp only [TileOp.apply]
    rw [loadTile_m_used, hused]

theorem runOps_m_used (hp : Helpers) (ops : List TileOp) (self : TextureTile)
    (hused : self.m_used = true) : (runOps hp self ops).m_used = true := by
  induction ops generalizing self with
  | nil => exact hused
  | cons op ops ih =>
    simp only [runOps, List.foldl_cons]
    exact ih _ (apply_m_used hp self op hused)

/-- C1 (exact hit), for power-of-two counts: when the file of the requested
tile `(level, x, y)` exists and decodes to a non-null image, `loadRawTile`
stores exactly that image (no crop, no rescale), records that image's own
depth and emits no signal, so no download request.  The level is a level of
the pyramid (not negative), its row and column counts are powers of two, for
which the doubles are exact, and `x` and `y` are `int`s. -/
theorem loadRawTile_exact_hit (hp : Helpers) (st : Storage) (textureLayer : GeoSceneTexture)
    (self : TextureTile) (level x y : Int) (img : QImageData) (p q : Nat)
    (hlevel : 0 ≤ level) (hx : fitsInt x) (hy : fitsInt y)
    (hrow : hp.levelToRow level = 2 ^ p) (hcol : hp.levelToColumn level = 2 ^ q)
    (hexists : st.fileExists (st.path (hp.relativeTileFileName textureLayer level x y)) = true)
    (hdecodes : st.loadImage (st.path (hp.relativeTileFileName textureLayer level x y)) = some img) :
    (loadRawTile hp st textureLayer self level x y).tile.m_rawtile = some img
    ∧ (loadRawTile hp st textureLayer self level x y).tile.m_depth = img.depth
    ∧ (loadRawTile hp st textureLayer self level x y).emitted = [] := by
  have hn : (level + 1).toNat = level.toNat + 1 := Int.toNat_add_nat hlevel 1
  have hi : ((level.toNat : Nat) : Int) = level := Int.toNat_of_nonneg hlevel
  have hrel := relfilename_self hp textureLayer level x y p q hrow hcol hx hy
  simp [loadRawTile, hn, loadRawTileLoop, hi, hrel, hexists, hdecodes, QImage.isNull, QImage.depth]

/-- Witness of C1, Scenario B: the exact tile `(1, 0, 0)` is on storage. -/
theorem loadRawTile_exact_hit_witness :
    (loadRawTile exampleHelpers (storageOf [("1/0/0", plainImage 2 2 32 9)]) scenarioLayer
        (TextureTile.new ⟨1, 0, 0⟩) 1 0 0).tile.m_rawtile
      = some ⟨2, 2, 32, 8, List.replicate 16 9⟩
    ∧ (loadRawTile exampleHelpers (storageOf [("1/0/0", plainImage 2 2 32 9)]) scenarioLayer
        (TextureTile.new ⟨1, 0, 0⟩) 1 0 0).tile.m_depth = 32
    ∧ (loadRawTile exampleHelpers (storageOf [("1/0/0", plainImage 2 2 32 9)]) scenarioLayer
        (TextureTile.new ⟨1, 0, 0⟩) 1 0 0).emitted = [] :=
  loadRawTile_exact_hit exampleHelpers (storageOf [("1/0/0", plainImage 2 2 32 9)]) scenarioLayer
    (TextureTile.new ⟨1, 0, 0⟩) 1 0 0 ⟨2, 2, 32, 8, List.replicate 16 9⟩ 1 1
    (by decide) (by decide) (by decide) (by decide) (by decide) (by decide) (by decide)

/-- C2 (cascade footprint), for power-of-two counts: with doubling counts
`2 ^ (a + L)` and `2 ^ (b + L)`, for which the doubles are exact, for a request
`(level, x, y)` of `int`s that are not negative and an ancestor level
`i < level` whose image is `W x H` (at most 32767 pixels a side, Qt's limit)
with `2 ^ (level - i)` dividing `W` and `H`, the candidate is
`(x / 2 ^ d, y / 2 ^ d)`, and the rectangle has left
`(x mod 2 ^ d) * W / 2 ^ d`, top `(y mod 2 ^ d) * H / 2 ^ d`, width `W / 2 ^ d`
and height `H / 2 ^ d`.  Its edges are those of the fractional window of the
requested tile: the pixel columns `left` and `left + width` of candidate `cx`
lie at `x / rows(level)` and `(x + 1) / rows(level)` of the pyramid (stated
multiplied out), and likewise for the rows.  This rectangle is the one handed
to `copy`, the copy is scaled to `W x H`, and that image is what `loadRawTile`
stores when level `i` is the finest level whose candidate decodes, to this
image. -/
theorem cascade_footprint (hp : Helpers) (a b : Nat) (level x y i : Int)
    (hrow : ∀ L : Int, 0 ≤ L → L ≤ level → hp.levelToRow L = 2 ^ (a + L.toNat))
    (hcol : ∀ L : Int, 0 ≤ L → L ≤ level → hp.levelToColumn L = 2 ^ (b + L.toNat))
    (hi : 0 ≤ i) (hil : i < level) (hx0 : 0 ≤ x) (hy0 : 0 ≤ y)
    (hx : x < 2147483647) (hy : y < 2147483647)
    (img : QImageData) (hWmax : img.width ≤ 32767) (hHmax : img.height ≤ 32767)
    (hW : 2 ^ (level - i).toNat ∣ img.width) (hH : 2 ^ (level - i).toNat ∣ img.height) :
    toInt (testx1 hp level x i) = x / 2 ^ (level - i).toNat
    ∧ toInt (testy1 hp level y i) = y / 2 ^ (level - i).toNat
    ∧ (cropRect hp level x y i (some img)).left
        = x % 2 ^ (level - i).toNat * img.width / 2 ^ (level - i).toNat
    ∧ (cropRect hp level x y i (some img)).top
        = y % 2 ^ (level - i).toNat * img.height / 2 ^ (level - i).toNat
    ∧ (cropRect hp level x y i (some img)).width = img.width / 2 ^ (level - i).toNat
    ∧ (cropRect hp level x y i (some img)).height = img.height / 2 ^ (level - i).toNat
    ∧ (toInt (testx1 hp level x i) * img.width + (cropRect hp level x y i (some img)).left)
          * hp.levelToRow level = x * img.width * hp.levelToRow i
    ∧ (toInt (testx1 hp level x i) * img.width + (cropRect hp level x y i (some img)).left
          + (cropRect hp level x y i (some img)).width) * hp.levelToRow level
        = (x + 1) * img.width * hp.levelToRow i
    ∧ (toInt (testy1 hp level y i) * img.height + (cropRect hp level x y i (some img)).top)
          * hp.levelToColumn level = y * img.height * hp.levelToColumn i
    ∧ (toInt (testy1 hp level y i) * img.height + (cropRect hp level x y i (some img)).top
          + (cropRect hp level x y i (some img)).height) * hp.levelToColumn level
        = (y + 1) * img.height * hp.levelToColumn i
    ∧ cropAndScale hp level x y i (some img)
        = QImage.scaled
            (QImage.copy (some img)
              { x1 := x % 2 ^ (level - i).toNat * img.width / 2 ^ (level - i).toNat
                y1 := y % 2 ^ (level - i).toNat * img.height / 2 ^ (level - i).toNat
                x2 := x % 2 ^ (level - i).toNat * img.width / 2 ^ (level - i).toNat
                  + img.width / 2 ^ (level - i).toNat - 1
                y2 := y % 2 ^ (level - i).toNat * img.height / 2 ^ (level - i).toNat
                  + img.height / 2 ^ (level - i).toNat - 1 })
            { width := img.width, height := img.height }
    ∧ ∀ (st : Storage) (textureLayer : GeoSceneTexture) (self : TextureTile),
        st.loadImage (st.path (relfilename hp textureLayer level x y i)) = some img →
        candidateDecodes hp st textureLayer level x y i.toNat = true →
        (∀ j : Nat, i.toNat < j → (j : Int) ≤ level →
          candidateDecodes hp st textureLayer level x y j = false) →
        (loadRawTile hp st textureLayer self level x y).tile.m_rawtile
          = cropAndScale hp level x y i (some img) := by
  have hD : 0 < 2 ^ (level - i).toNat := Nat.pos_pow_of_pos _ (by norm_num)
  have hcast : ((2 ^ (level - i).toNat : Nat) : Int) = 2 ^ (level - i).toNat := by push_cast; rfl
  have hl : level.toNat = i.toNat + (level - i).toNat := by omega
  have hx53 : |x| < 2 ^ 53 := abs_lt_of_fitsInt ⟨by omega, by omega⟩
  have hy53 : |y| < 2 ^ 53 := abs_lt_of_fitsInt ⟨by omega, by omega⟩
  have hx153 : |x + 1| < 2 ^ 53 := abs_lt_of_fitsInt ⟨by omega, by omega⟩
  have hy153 : |y + 1| < 2 ^ 53 := abs_lt_of_fitsInt ⟨by omega, by omega⟩
  have hRl := hrow level (by omega) (le_refl _)
  have hRi := hrow i hi hil.le
  have hCl := hcol level (by omega) (le_refl _)
  have hCi := hcol i hi hil.le
  -- the doubles are exact
  have htx : testx1 hp level x i = (x : ℚ) / ((2 ^ (level - i).toNat : Nat) : ℚ) := by
    unfold testx1 origx1
    exact fmul_fdiv_doubling hp.levelToRow a level i hRl hRi hi hil.le x hx53
  have hty : testy1 hp level y i = (y : ℚ) / ((2 ^ (level - i).toNat : Nat) : ℚ) := by
    unfold testy1 origy1
    exact fmul_fdiv_doubling hp.levelToColumn b level i hCl hCi hi hil.le y hy53
  have htx2 : testx2 hp level x i
      = ((x + 1 : Int) : ℚ) / ((2 ^ (level - i).toNat : Nat) : ℚ) := by
    unfold testx2 origx2
    rw [addInt_eq x 1 ⟨by omega, by omega⟩]
    exact fmul_fdiv_doubling hp.levelToRow a level i hRl hRi hi hil.le (x + 1) hx153
  have hty2 : testy2 hp level y i
      = ((y + 1 : Int) : ℚ) / ((2 ^ (level - i).toNat : Nat) : ℚ) := by
    unfold testy2 origy2
    rw [addInt_eq y 1 ⟨by omega, by omega⟩]
    exact fmul_fdiv_doubling hp.levelToColumn b level i hCl hCi hi hil.le (y + 1) hy153
  -- the candidate
  have hcx : toInt (testx1 hp level x i) = x / ((2 ^ (level - i).toNat : Nat) : Int) := by
    rw [htx, toInt_intCast_div_natCast x _ hx0]
  have hcy : toInt (testy1 hp level y i) = y / ((2 ^ (level - i).toNat : Nat) : Int) := by
    rw [hty, toInt_intCast_div_natCast y _ hy0]
  -- the corners
  have hleft : (topleft hp level x y i (some img)).x
      = (x % ((2 ^ (level - i).toNat : Nat) : Int))
          * ((img.width : Int) / ((2 ^ (level - i).toNat : Nat) : Int)) := by
    have hb := window_bounds x 0 _ img.width hD hx0 hx (le_refl 0) (by norm_num) hWmax
    have hw := fmul_fsub_window x 0 _ (level - i).toNat img.width rfl hb.1 hb.2
    have h := toInt_window x 0 _ _ hD hW
    simp only [add_zero] at h hw
    simp only [topleft, QImage.width]
    rw [hcx, htx, hw]
    exact h
  have htop : (topleft hp level x y i (some img)).y
      = (y % ((2 ^ (level - i).toNat : Nat) : Int))
          * ((img.height : Int) / ((2 ^ (level - i).toNat : Nat) : Int)) := by
    have hb := window_bounds y 0 _ img.height hD hy0 hy (le_refl 0) (by norm_num) hHmax
    have hw := fmul_fsub_window y 0 _ (level - i).toNat img.height rfl hb.1 hb.2
    have h := toInt_window y 0 _ _ hD hH
    simp only [add_zero] at h hw
    simp only [topleft, QImage.height]
    rw [hcy, hty, hw]
    exact h
  have hright : (bottomright hp level x y i (some img)).x
      = (x % ((2 ^ (level - i).toNat : Nat) : Int) + 1)
          * ((img.width : Int) / ((2 ^ (level - i).toNat : Nat) : Int)) - 1 := by
    have hb := window_bounds x 1 _ img.width hD hx0 hx (by norm_num) (le_refl 1) hWmax
    have hw := fmul_fsub_window x 1 _ (level - i).toNat img.width rfl hb.1 hb.2
    have h := toInt_window x 1 _ _ hD hW
    simp only [bottomright, QImage.width]
    rw [hcx, htx2, hw, h]
  have hbottom : (bottomright hp level x y i (some img)).y
      = (y % ((2 ^ (level - i).toNat : Nat) : Int) + 1)
          * ((img.height : Int) / ((2 ^ (level - i).toNat : Nat) : Int)) - 1 := by
    have hb := window_bounds y 1 _ img.height hD hy0 hy (by norm_num) (le_refl 1) hHmax
    have hw := fmul_fsub_window y 1 _ (level - i).toNat img.height rfl hb.1 hb.2
    have h := toInt_window y 1 _ _ hD hH
    simp only [bottomright, QImage.height]
    rw [hcy, hty2, hw, h]
  obtain ⟨w, hw⟩ := hW
  obtain ⟨h, hh⟩ := hH
  have hDi : ((2 ^ (level - i).toNat : Nat) : Int) ≠ 0 := by positivity
  have hwi : (img.width : Int) = ((2 ^ (level - i).toNat : Nat) : Int) * w := by exact_mod_cast hw
  have hhi : (img.height : Int) = ((2 ^ (level - i).toNat : Nat) : Int) * h := by exact_mod_cast hh
  have hxd := Int.ediv_add_emod x ((2 ^ (level - i).toNat : Nat) : Int)
  have hyd := Int.ediv_add_emod y ((2 ^ (level - i).toNat : Nat) : Int)
  have hRl2 : hp.levelToRow level = hp.levelToRow i * ((2 ^ (level - i).toNat : Nat) : Int) := by
    rw [hRl, hRi, hl]; push_cast; ring
  have hCl2 : hp.levelToColumn level
      = hp.levelToColumn i * ((2 ^ (level - i).toNat : Nat) : Int) := by
    rw [hCl, hCi, hl]; push_cast; ring
  have hrect : cropRect hp level x y i (some img)
      = { x1 := x % 2 ^ (level - i).toNat * img.width / 2 ^ (level - i).toNat
          y1 := y % 2 ^ (level - i).toNat * img.height / 2 ^ (level - i).toNat
          x2 := x % 2 ^ (level - i).toNat * img.width / 2 ^ (level - i).toNat
            + img.width / 2 ^ (level - i).toNat - 1
          y2 := y % 2 ^ (level - i).toNat * img.height / 2 ^ (level - i).toNat
            + img.height / 2 ^ (level - i).toNat - 1 } := by
    simp only [cropRect, QRect.ofCorners]
    rw [hleft, htop, hright, hbottom, ← hcast]
    generalize ((2 ^ (level - i).toNat : Nat) : Int) = D at *
    rw [hwi, hhi, Int.mul_ediv_cancel_left _ hDi, Int.mul_ediv_cancel_left _ hDi,
      ← mul_assoc, mul_comm (x % D) D, mul_assoc, Int.mul_ediv_cancel_left _ hDi,
      ← mul_assoc, mul_comm (y % D) D, mul_assoc, Int.mul_ediv_cancel_left _ hDi]
    congr 1 <;> ring
  have hscale : cropAndScale hp level x y i (some img)
      = QImage.scaled
          (QImage.copy (some img)
            { x1 := x % 2 ^ (level - i).toNat * img.width / 2 ^ (level - i).toNat
              y1 := y % 2 ^ (level - i).toNat * img.height / 2 ^ (level - i).toNat
              x2 := x % 2 ^ (level - i).toNat * img.width / 2 ^ (level - i).toNat
                + img.width / 2 ^ (level - i).toNat - 1
              y2 := y % 2 ^ (level - i).toNat * img.height / 2 ^ (level - i).toNat
                + img.height / 2 ^ (level - i).toNat - 1 })
          { width := img.width, height := img.height } := by
    simp only [cropAndScale, hrect, QImage.size, QImage.width, QImage.height]
  have hload : ∀ (st : Storage) (textureLayer : GeoSceneTexture) (self : TextureTile),
      st.loadImage (st.path (relfilename hp textureLayer level x y i)) = some img →
      candidateDecodes hp st textureLayer level x y i.toNat = true →
      (∀ j : Nat, i.toNat < j → (j : Int) ≤ level →
        candidateDecodes hp st textureLayer level x y j = false) →
      (loadRawTile hp st textureLayer self level x y).tile.m_rawtile
        = cropAndScale hp level x y i (some img) := by
    intro st textureLayer self himg hdec habove
    have hiN : ((i.toNat : Nat) : Int) = i := Int.toNat_of_nonneg hi
    have hloop := loadRawTileLoop_finest hp st textureLayer self.m_id self.m_rawtile level x y
      (level + 1).toNat i.toNat (by omega) hdec (fun j hj hjn => habove j hj (by omega))
    simp only [loadRawTile, hloop, hiN, himg]
    rw [if_pos (by omega)]
  rw [hcast] at hcx hcy hwi hhi hxd hyd hRl2 hCl2 hDi
  have hWd : (img.width : Int) / 2 ^ (level - i).toNat = w := by
    rw [hwi, Int.mul_ediv_cancel_left _ hDi]
  have hHd : (img.height : Int) / 2 ^ (level - i).toNat = h := by
    rw [hhi, Int.mul_ediv_cancel_left _ hDi]
  have hLv : x % 2 ^ (level - i).toNat * (img.width : Int) / 2 ^ (level - i).toNat
      = x % 2 ^ (level - i).toNat * w := by
    rw [hwi, ← mul_assoc, mul_comm (x % 2 ^ (level - i).toNat), mul_assoc,
      Int.mul_ediv_cancel_left _ hDi]
  have hTv : y % 2 ^ (level - i).toNat * (img.height : Int) / 2 ^ (level - i).toNat
      = y % 2 ^ (level - i).toNat * h := by
    rw [hhi, ← mul_assoc, mul_comm (y % 2 ^ (level - i).toNat), mul_assoc,
      Int.mul_ediv_cancel_left _ hDi]
  refine ⟨hcx, hcy, ?_, ?_, ?_, ?_, ?_, ?_, ?_, ?_, hscale, hload⟩
  · simp only [hrect, QRect.left]
  · simp only [hrect, QRect.top]
  · simp only [hrect, QRect.width]
    ring
  · simp only [hrect, QRect.height]
    ring
  · simp only [hrect, QRect.left, hcx, hLv, hRl2]
    rw [hwi]
    linear_combination
      ((2 : Int) ^ (level - i).toNat * (w : Int) * hp.levelToRow i) * hxd
  · simp only [hrect, QRect.left, QRect.width, hcx, hLv, hWd, hRl2]
    rw [hwi]
    linear_combination
      ((2 : Int) ^ (level - i).toNat * (w : Int) * hp.levelToRow i) * hxd
  · simp only [hrect, QRect.top, hcy, hTv, hCl2]
    rw [hhi]
    linear_combination
      ((2 : Int) ^ (level - i).toNat * (h : Int) * hp.levelToColumn i) * hyd
  · simp only [hrect, QRect.top, QRect.height, hcy, hTv, hHd, hCl2]
    rw [hhi]
    linear_combination
      ((2 : Int) ^ (level - i).toNat * (h : Int) * hp.levelToColumn i) * hyd

/-- Witness of C2, Scenario A: level 2, tile `(3, 1)`, resolved from the
256 x 256 image of level 0: the candidate is `(0, 0)`, the rectangle is the
64 x 64 one at `(192, 64)`, and `loadRawTile` stores its copy scaled back to
256 x 256, four times. -/
theorem cascade_footprint_witness :
    (toInt (testx1 exampleHelpers 2 3 0) = 3 / 2 ^ ((2 : Int) - 0).toNat
      ∧ toInt (testy1 exampleHelpers 2 1 0) = 1 / 2 ^ ((2 : Int) - 0).toNat
      ∧ (cropRect exampleHelpers 2 3 1 0 (plainImage 256 256 32 7)).left
          = 3 % 2 ^ ((2 : Int) - 0).toNat * (256 : Nat) / 2 ^ ((2 : Int) - 0).toNat
      ∧ (cropRect exampleHelpers 2 3 1 0 (plainImage 256 256 32 7)).top
          = 1 % 2 ^ ((2 : Int) - 0).toNat * (256 : Nat) / 2 ^ ((2 : Int) - 0).toNat
      ∧ (cropRect exampleHelpers 2 3 1 0 (plainImage 256 256 32 7)).width
          = (256 : Nat) / 2 ^ ((2 : Int) - 0).toNat
      ∧ (cropRect exampleHelpers 2 3 1 0 (plainImage 256 256 32 7)).height
          = (256 : Nat) / 2 ^ ((2 : Int) - 0).toNat)
    ∧ (loadRawTile exampleHelpers scenarioA scenarioLayer (TextureTile.new ⟨2, 3, 1⟩)
          2 3 1).tile.m_rawtile
        = cropAndScale exampleHelpers 2 3 1 0 (plainImage 256 256 32 7)
    ∧ cropRect exampleHelpers 2 3 1 0 (plainImage 256 256 32 7) = ⟨192, 64, 255, 127⟩
    ∧ (cropRect exampleHelpers 2 3 1 0 (plainImage 256 256 32 7)).width = 64
    ∧ (cropRect exampleHelpers 2 3 1 0 (plainImage 256 256 32 7)).height = 64
    ∧ QImage.size (loadRawTile exampleHelpers scenarioA scenarioLayer
          (TextureTile.new ⟨2, 3, 1⟩) 2 3 1).tile.m_rawtile = ⟨4 * 64, 4 * 64⟩ := by
  have h := cascade_footprint exampleHelpers 0 0 2 3 1 0
    (fun L _ _ => by simp [exampleHelpers, doubling])
    (fun L _ _ => by simp [exampleHelpers, doubling])
    (by decide) (by decide) (by decide) (by decide) (by decide) (by decide)
    ⟨256, 256, 32, 1024, List.replicate (1024 * 256) 7⟩ (by decide) (by decide)
    (by decide) (by decide)
  have hcandidates : ∀ j : Nat, (0 : Int).toNat < j → (j : Int) ≤ 2 →
      candidateDecodes exampleHelpers scenarioA scenarioLayer 2 3 1 j = false := by
    intro j hj0 hj2
    have hj : j = 1 ∨ j = 2 := by
      simp only [Int.toNat_zero] at hj0
      omega
    rcases hj with rfl | rfl <;> decide!
  have hname : relfilename exampleHelpers scenarioLayer 2 3 1 0 = "0/0/0" := by decide!
  have himg : scenarioA.loadImage (scenarioA.path (relfilename exampleHelpers scenarioLayer 2 3 1 0))
      = some ⟨256, 256, 32, 1024, List.replicate (1024 * 256) 7⟩ := by
    rw [hname]
    rfl
  refine ⟨⟨h.1, h.2.1, h.2.2.1, h.2.2.2.1, h.2.2.2.2.1, h.2.2.2.2.2.1⟩,
    h.2.2.2.2.2.2.2.2.2.2.2 scenarioA scenarioLayer (TextureTile.new ⟨2, 3, 1⟩)
      himg (by decide!) hcandidates, ?_, ?_, ?_, ?_⟩ <;> decide!

/-- C3 (download requests on a miss): the signals one call of `loadRawTile`
emits are exactly the download requests of `expectedRequests`: in descending
level order, one for each visited level whose candidate file does not exist,
each with the relative file name of the candidate of that level and the text
of the tile's own id `m_id`.  For a request of `int`s that are not negative
and counts that are powers of two at the requested level and at level `i`,
for which the doubles are exact, the candidate of level `i` is the floor of
the fractional origin of the requested tile mapped to level `i`.  When no
candidate file exists at any level from `level` down to `0`, exactly
`level + 1` requests are emitted. -/
theorem loadRawTile_download_requests (hp : Helpers) (st : Storage)
    (textureLayer : GeoSceneTexture) (self : TextureTile) (level x y : Int) :
    (loadRawTile hp st textureLayer self level x y).emitted
      = expectedRequests hp st textureLayer self.m_id level x y (level + 1).toNat
    ∧ (0 ≤ x → 0 ≤ y → fitsInt x → fitsInt y →
        ∀ (i : Int) (p q p2 q2 : Nat),
          hp.levelToRow level = 2 ^ p → hp.levelToRow i = 2 ^ q →
          hp.levelToColumn level = 2 ^ p2 → hp.levelToColumn i = 2 ^ q2 →
          relfilename hp textureLayer level x y i
            = hp.relativeTileFileName textureLayer i
                ⌊(x : ℚ) / (hp.levelToRow level : ℚ) * (hp.levelToRow i : ℚ)⌋
                ⌊(y : ℚ) / (hp.levelToColumn level : ℚ) * (hp.levelToColumn i : ℚ)⌋)
    ∧ (0 ≤ level →
        (∀ i : Nat, (i : Int) ≤ level → candidateExists hp st textureLayer level x y i = false) →
        ((loadRawTile hp st textureLayer self level x y).emitted.length : Int) = level + 1) := by
  refine ⟨loadRawTileLoop_emitted hp st textureLayer _ _ level x y _, ?_, ?_⟩
  · intro hx0 hy0 hx hy i p q p2 q2 hrow hrowi hcol hcoli
    exact relfilename_floor hp textureLayer level x y i p q p2 q2 hrow hrowi hcol hcoli
      hx0 hy0 hx hy
  · intro hlevel habsent
    have hlen := expectedRequests_length_of_absent hp st textureLayer self.m_id level x y
      (level + 1).toNat (fun i hi => habsent i (by omega))
    have hemit := loadRawTileLoop_emitted hp st textureLayer self.m_id self.m_rawtile level x y
      (level + 1).toNat
    simp only [loadRawTile]
    rw [hemit, hlen]
    omega

/-- Witness of C3, Scenario C: nothing is on storage and tile `(2, 3, 1)` is
requested: three requests, one per level, from level 2 down to level 0, all
with the id of the requested tile; the candidate of level 1 is the floor of
`3 / 4 * 2` and of `1 / 4 * 2`, tile `(1, 0)`. -/
theorem loadRawTile_download_requests_witness :
    (loadRawTile exampleHelpers (storageOf []) scenarioLayer (TextureTile.new ⟨2, 3, 1⟩)
        2 3 1).emitted
      = [Signal.downloadTile "2/3/1" "2:3:1", Signal.downloadTile "1/1/0" "2:3:1",
          Signal.downloadTile "0/0/0" "2:3:1"]
    ∧ relfilename exampleHelpers scenarioLayer 2 3 1 1
      = exampleHelpers.relativeTileFileName scenarioLayer 1
          ⌊((3 : Int) : ℚ) / (exampleHelpers.levelToRow 2 : ℚ) * (exampleHelpers.levelToRow 1 : ℚ)⌋
          ⌊((1 : Int) : ℚ) / (exampleHelpers.levelToColumn 2 : ℚ)
            * (exampleHelpers.levelToColumn 1 : ℚ)⌋
    ∧ ((loadRawTile exampleHelpers (storageOf []) scenarioLayer (TextureTile.new ⟨2, 3, 1⟩)
        2 3 1).emitted.length : Int) = 2 + 1 :=
  ⟨(loadRawTile_download_requests exampleHelpers (storageOf []) scenarioLayer
      (TextureTile.new ⟨2, 3, 1⟩) 2 3 1).1.trans (by decide!),
    (loadRawTile_download_requests exampleHelpers (storageOf []) scenarioLayer
      (TextureTile.new ⟨2, 3, 1⟩) 2 3 1).2.1 (by decide) (by decide) (by decide) (by decide)
      1 2 1 2 1 (by decide) (by decide) (by decide) (by decide),
    (loadRawTile_download_requests exampleHelpers (storageOf []) scenarioLayer
      (TextureTile.new ⟨2, 3, 1⟩) 2 3 1).2.2 (by decide) (fun _ _ => rfl)⟩

/-- C4, counterexample (Scenario A): level 2, tile `(3, 1)`, only the tile of
level 0 on storage.  The exact tile is absent and an ancestor is present and
decodes, yet two download requests are emitted, not one: for the requested
tile and for the absent candidate of level 1. -/
theorem single_request_counterexample :
    candidateExists exampleHelpers scenarioA scenarioLayer 2 3 1 2 = false
    ∧ candidateDecodes exampleHelpers scenarioA scenarioLayer 2 3 1 0 = true
    ∧ (loadRawTile exampleHelpers scenarioA scenarioLayer (TextureTile.new ⟨2, 3, 1⟩)
          2 3 1).emitted
        = [Signal.downloadTile "2/3/1" "2:3:1", Signal.downloadTile "1/1/0" "2:3:1"]
    ∧ (loadRawTile exampleHelpers scenarioA scenarioLayer (TextureTile.new ⟨2, 3, 1⟩)
          2 3 1).emitted.length ≠ 1 := by
  refine ⟨?_, ?_, ?_, ?_⟩ <;> decide!

/-- C4, amended: for counts at the requested level that are powers of two, for
which the doubles are exact, and `int`s `x` and `y`: when the file of the
requested tile `(level, x, y)` is absent, the first download request carries
the relative file name of the requested tile at the requested level and the
text of the tile's id; it is followed by the requests for the lower visited
levels whose candidate file is absent.  So there is at least one request, and
exactly one when the candidate of the parent level exists and decodes. -/
theorem loadRawTile_requests_missing_original (hp : Helpers) (st : Storage)
    (textureLayer : GeoSceneTexture) (self : TextureTile) (level x y : Int) (p q : Nat)
    (hlevel : 0 ≤ level) (hx : fitsInt x) (hy : fitsInt y)
    (hrow : hp.levelToRow level = 2 ^ p) (hcol : hp.levelToColumn level = 2 ^ q)
    (habsent : st.fileExists (st.path (hp.relativeTileFileName textureLayer level x y)) = false) :
    (loadRawTile hp st textureLayer self level x y).emitted
      = Signal.downloadTile (hp.relativeTileFileName textureLayer level x y)
          (hp.tileIdToString self.m_id)
        :: expectedRequests hp st textureLayer self.m_id level x y level.toNat
    ∧ (1 ≤ level →
        candidateDecodes hp st textureLayer level x y (level - 1).toNat = true →
        (loadRawTile hp st textureLayer self level x y).emitted
          = [Signal.downloadTile (hp.relativeTileFileName textureLayer level x y)
              (hp.tileIdToString self.m_id)]) := by
  have hn : (level + 1).toNat = level.toNat + 1 := Int.toNat_add_nat hlevel 1
  have hi : ((level.toNat : Nat) : Int) = level := Int.toNat_of_nonneg hlevel
  have hrel : relfilename hp textureLayer level x y (level.toNat : Nat)
      = hp.relativeTileFileName textureLayer level x y := by
    rw [hi]
    exact relfilename_self hp textureLayer level x y p q hrow hcol hx hy
  have hE : candidateExists hp st textureLayer level x y level.toNat = false := by
    unfold candidateExists
    rw [hrel, habsent]
  have hD : candidateDecodes hp st textureLayer level x y level.toNat = false := by
    simp [candidateDecodes, hE]
  have hemit : (loadRawTile hp st textureLayer self level x y).emitted
      = Signal.downloadTile (hp.relativeTileFileName textureLayer level x y)
          (hp.tileIdToString self.m_id)
        :: expectedRequests hp st textureLayer self.m_id level x y level.toNat := by
    simp only [loadRawTile]
    rw [loadRawTileLoop_emitted, hn, expectedRequests_succ, hE, hD, hrel]
    simp
  refine ⟨hemit, ?_⟩
  intro h1 hparent
  obtain ⟨m, hm⟩ : ∃ m : Nat, level.toNat = m + 1 := ⟨level.toNat - 1, by omega⟩
  have hm1 : (level - 1).toNat = m := by omega
  rw [hm1] at hparent
  have hparentE : candidateExists hp st textureLayer level x y m = true := by
    simp only [candidateDecodes, Bool.and_eq_true] at hparent
    exact hparent.1
  rw [hemit, hm, expectedRequests_succ, hparentE, hparent]
  simp

/-- Witness of the amended C4: level 1, tile `(1, 0)`, with only the tile of
level 0 on storage: one request, for the requested tile. -/
theorem loadRawTile_requests_missing_original_witness :
    (loadRawTile exampleHelpers scenarioA scenarioLayer (TextureTile.new ⟨1, 1, 0⟩)
        1 1 0).emitted = [Signal.downloadTile "1/1/0" "1:1:0"] :=
  (loadRawTile_requests_missing_original exampleHelpers scenarioA scenarioLayer
    (TextureTile.new ⟨1, 1, 0⟩) 1 1 0 1 1 (by decide) (by decide) (by decide) (by decide)
    (by decide) (by decide)).2 (by decide) (by decide!)

/-- C5, counterexample: tile `(0, 0, 0)` is requested, with an empty storage
and with a storage whose file `0/0/0` is present but does not decode.  The
pixel data and the depth agree, the download requests do not: the absent file
is requested, the undecodable one is not. -/
theorem undecodable_equals_absent_counterexample :
    (loadRawTile exampleHelpers (storageOf []) scenarioLayer (TextureTile.new ⟨0, 0, 0⟩)
        0 0 0).emitted = [Signal.downloadTile "0/0/0" "0:0:0"]
    ∧ (loadRawTile exampleHelpers (storageOf [("0/0/0", none)]) scenarioLayer
        (TextureTile.new ⟨0, 0, 0⟩) 0 0 0).emitted = []
    ∧ (loadRawTile exampleHelpers (storageOf []) scenarioLayer (TextureTile.new ⟨0, 0, 0⟩)
        0 0 0).emitted
      ≠ (loadRawTile exampleHelpers (storageOf [("0/0/0", none)]) scenarioLayer
        (TextureTile.new ⟨0, 0, 0⟩) 0 0 0).emitted := by
  refine ⟨?_, ?_, ?_⟩ <;> decide!

/-- C5, amended: for two storages that differ only in one file, absent in the
first and present but undecodable in the second, `loadRawTile` leaves the same
tile (same pixel data, same depth) and continues the cascade alike (the same
storage lookups); the download requests with the second storage are those
with the first one without the requests for that file. -/
theorem loadRawTile_undecodable_like_absent (hp : Helpers) (st st2 : Storage)
    (textureLayer : GeoSceneTexture) (self : TextureTile) (level x y : Int) (file : String)
    (hpath : ∀ name, st2.path name = st.path name)
    (habsent : st.fileExists file = false)
    (hpresent : st2.fileExists file = true) (hundecodable : st2.loadImage file = none)
    (hexists : ∀ name, name ≠ file → st2.fileExists name = st.fileExists name)
    (hload : ∀ name, name ≠ file → st2.loadImage name = st.loadImage name) :
    (loadRawTile hp st2 textureLayer self level x y).tile
      = (loadRawTile hp st textureLayer self level x y).tile
    ∧ (loadRawTile hp st2 textureLayer self level x y).lookups
      = (loadRawTile hp st textureLayer self level x y).lookups
    ∧ (loadRawTile hp st2 textureLayer self level x y).emitted
      = (loadRawTile hp st textureLayer self level x y).emitted.filter
          (notRequestFor st file) := by
  obtain ⟨h1, h2, h3⟩ := loadRawTileLoop_undecodable hp st textureLayer st2 file hpath habsent
    hpresent hundecodable hexists hload self.m_id self.m_rawtile level x y (level + 1).toNat
  simp only [loadRawTile, h1, h2, h3, and_self]

/-- Witness of the amended C5: tile `(1, 1, 0)` with the tile of level 0 on
storage; the file `1/1/0` is absent in one storage, undecodable in the other. -/
theorem loadRawTile_undecodable_like_absent_witness :
    (loadRawTile exampleHelpers
        (storageOf [("1/1/0", none), ("0/0/0", plainImage 2 2 8 5)]) scenarioLayer
        (TextureTile.new ⟨1, 1, 0⟩) 1 1 0).tile
      = (loadRawTile exampleHelpers (storageOf [("0/0/0", plainImage 2 2 8 5)]) scenarioLayer
        (TextureTile.new ⟨1, 1, 0⟩) 1 1 0).tile
    ∧ (loadRawTile exampleHelpers
        (storageOf [("1/1/0", none), ("0/0/0", plainImage 2 2 8 5)]) scenarioLayer
        (TextureTile.new ⟨1, 1, 0⟩) 1 1 0).emitted = [] :=
  ⟨(loadRawTile_undecodable_like_absent exampleHelpers
      (storageOf [("0/0/0", plainImage 2 2 8 5)])
      (storageOf [("1/1/0", none), ("0/0/0", plainImage 2 2 8 5)]) scenarioLayer
      (TextureTile.new ⟨1, 1, 0⟩) 1 1 0 "1/1/0" (fun _ => rfl) (by decide) (by decide)
      (by decide)
      (fun name hname => by
        have hne : (name == "1/1/0") = false := beq_eq_false_iff_ne.mpr hname
        simp [storageOf, List.lookup, hne])
      (fun name hname => by
        have hne : (name == "1/1/0") = false := beq_eq_false_iff_ne.mpr hname
        simp [storageOf, List.lookup, hne])).1,
    by decide!⟩

/-- C6, counterexample: a tile first loads its image from a storage holding
`0/0/0`; then the file is gone and the same tile is loaded again.  The cascade
is exhausted, yet the tile still holds the image of the first load with depth
32, and `loadTile` does not end fatally but builds a row table. -/
theorem cascade_exhaustion_counterexample :
    (∀ i : Nat, candidateDecodes exampleHelpers (storageOf []) scenarioLayer 0 0 0 i = false)
    ∧ (loadRawTile exampleHelpers (storageOf []) scenarioLayer
        (loadRawTile exampleHelpers (storageOf [("0/0/0", plainImage 1 2 32 3)]) scenarioLayer
          (TextureTile.new ⟨0, 0, 0⟩) 0 0 0).tile 0 0 0).tile.m_rawtile
      = plainImage 1 2 32 3
    ∧ (loadRawTile exampleHelpers (storageOf []) scenarioLayer
        (loadRawTile exampleHelpers (storageOf [("0/0/0", plainImage 1 2 32 3)]) scenarioLayer
          (TextureTile.new ⟨0, 0, 0⟩) 0 0 0).tile 0 0 0).tile.m_depth = 32
    ∧ loadTile (loadRawTile exampleHelpers (storageOf []) scenarioLayer
        (loadRawTile exampleHelpers (storageOf [("0/0/0", plainImage 1 2 32 3)]) scenarioLayer
          (TextureTile.new ⟨0, 0, 0⟩) 0 0 0).tile 0 0 0).tile false
      = LoadOutcome.done
          { jumpTable8 := none
            jumpTable32 := some [⟨List.replicate 8 3, 0⟩, ⟨List.replicate 8 3, 4⟩]
            m_id := ⟨0, 0, 0⟩
            m_rawtile := plainImage 1 2 32 3
            m_depth := 32
            m_used := true } [] := by
  refine ⟨fun i => rfl, ?_, ?_, ?_⟩ <;> decide!

/-- C6, amended: when no level from `level` down to `0` has a candidate that
exists and decodes, `loadRawTile` leaves the pixel data as it was before the
call and records its depth.  For a tile whose pixel data was empty, so for a
newly constructed tile, the pixel data is empty afterwards (null image, depth
0) and the following `loadTile` ends fatally, the tile unchanged. -/
theorem loadRawTile_exhausted (hp : Helpers) (st : Storage) (textureLayer : GeoSceneTexture)
    (self : TextureTile) (level x y : Int)
    (hnone : ∀ i : Nat, (i : Int) ≤ level →
      candidateDecodes hp st textureLayer level x y i = false) :
    (loadRawTile hp st textureLayer self level x y).tile.m_rawtile = self.m_rawtile
    ∧ (loadRawTile hp st textureLayer self level x y).tile.m_depth
        = QImage.depth self.m_rawtile
    ∧ (self.m_rawtile = none →
        (loadRawTile hp st textureLayer self level x y).tile.m_rawtile = none
        ∧ (loadRawTile hp st textureLayer self level x y).tile.m_depth = 0
        ∧ ∀ requestTileUpdate,
            loadTile (loadRawTile hp st textureLayer self level x y).tile requestTileUpdate
              = LoadOutcome.fatal (loadRawTile hp st textureLayer self level x y).tile) := by
  have hloop := loadRawTileLoop_exhausted hp st textureLayer self.m_id self.m_rawtile level x y
    (level + 1).toNat (fun i hi => hnone i (by omega))
  have hraw : (loadRawTile hp st textureLayer self level x y).tile.m_rawtile = self.m_rawtile := by
    simp only [loadRawTile, hloop]
  have hdepth : (loadRawTile hp st textureLayer self level x y).tile.m_depth
      = QImage.depth self.m_rawtile := by
    simp only [loadRawTile, hloop]
  refine ⟨hraw, hdepth, ?_⟩
  intro hnull
  refine ⟨hraw.trans hnull, ?_, ?_⟩
  · rw [hdepth, hnull]; rfl
  · intro requestTileUpdate
    unfold loadTile
    rw [hraw, hnull]
    rfl

/-- Witness of the amended C6, Scenario C: a new tile `(2, 3, 1)` and nothing
on storage. -/
theorem loadRawTile_exhausted_witness :
    (loadRawTile exampleHelpers (storageOf []) scenarioLayer (TextureTile.new ⟨2, 3, 1⟩)
        2 3 1).tile.m_rawtile = none
    ∧ (loadRawTile exampleHelpers (storageOf []) scenarioLayer (TextureTile.new ⟨2, 3, 1⟩)
        2 3 1).tile.m_depth = 0
    ∧ ∀ requestTileUpdate,
        loadTile (loadRawTile exampleHelpers (storageOf []) scenarioLayer
            (TextureTile.new ⟨2, 3, 1⟩) 2 3 1).tile requestTileUpdate
          = LoadOutcome.fatal (loadRawTile exampleHelpers (storageOf []) scenarioLayer
            (TextureTile.new ⟨2, 3, 1⟩) 2 3 1).tile :=
  (loadRawTile_exhausted exampleHelpers (storageOf []) scenarioLayer (TextureTile.new ⟨2, 3, 1⟩)
    2 3 1 (fun _ _ => rfl)).2.2 rfl

/-- C7 (depth guard): `loadTile` ends fatally exactly when the pixel data is
empty or the recorded depth is neither 8 nor 32.  In the fatal case the tile
is as before, no row table built or replaced; otherwise the row table of
exactly the recorded depth is built from the pixel data and nothing else of
the tile changes. -/
theorem loadTile_depth_guard (self : TextureTile) (requestTileUpdate : Bool) :
    ((∃ tile, loadTile self requestTileUpdate = LoadOutcome.fatal tile)
      ↔ (QImage.isNull self.m_rawtile = true ∨ (self.m_depth ≠ 8 ∧ self.m_depth ≠ 32)))
    ∧ ((QImage.isNull self.m_rawtile = true ∨ (self.m_depth ≠ 8 ∧ self.m_depth ≠ 32)) →
        loadTile self requestTileUpdate = LoadOutcome.fatal self)
    ∧ (QImage.isNull self.m_rawtile = false → self.m_depth = 32 →
        loadTile self requestTileUpdate
          = LoadOutcome.done
              { self with jumpTable32 := some (jumpTableFromQImage32 self.m_rawtile) }
              (if requestTileUpdate then [Signal.tileUpdateDone] else []))
    ∧ (QImage.isNull self.m_rawtile = false → self.m_depth = 8 →
        loadTile self requestTileUpdate
          = LoadOutcome.done
              { self with jumpTable8 := some (jumpTableFromQImage8 self.m_rawtile) }
              (if requestTileUpdate then [Signal.tileUpdateDone] else [])) := by
  have hfatal : (QImage.isNull self.m_rawtile = true ∨ (self.m_depth ≠ 8 ∧ self.m_depth ≠ 32)) →
      loadTile self requestTileUpdate = LoadOutcome.fatal self := by
    rintro (hnull | ⟨h8, h32⟩)
    · simp [loadTile, hnull]
    · unfold loadTile
      by_cases hnull : QImage.isNull self.m_rawtile = true
      · simp [hnull]
      · simp [hnull, h8, h32]
  have h32 : QImage.isNull self.m_rawtile = false → self.m_depth = 32 →
      loadTile self requestTileUpdate
        = LoadOutcome.done
            { self with jumpTable32 := some (jumpTableFromQImage32 self.m_rawtile) }
            (if requestTileUpdate then [Signal.tileUpdateDone] else []) := by
    intro hnull hdepth
    simp [loadTile, hnull, hdepth]
  have h8 : QImage.isNull self.m_rawtile = false → self.m_depth = 8 →
      loadTile self requestTileUpdate
        = LoadOutcome.done
            { self with jumpTable8 := some (jumpTableFromQImage8 self.m_rawtile) }
            (if requestTileUpdate then [Signal.tileUpdateDone] else []) := by
    intro hnull hdepth
    simp [loadTile, hnull, hdepth]
  refine ⟨⟨?_, fun h => ⟨self, hfatal h⟩⟩, hfatal, h32, h8⟩
  rintro ⟨tile, htile⟩
  by_contra hcon
  simp only [not_or, not_and_or, not_not, Bool.not_eq_true] at hcon
  obtain ⟨hnull, hdepth⟩ := hcon
  rcases hdepth with hdepth | hdepth
  · rw [h8 hnull hdepth] at htile; cases htile
  · rw [h32 hnull hdepth] at htile; cases htile

/-- Witness of C7: a 16-bit image ends fatally, a 32-bit image of two
scanlines gets a 32-bit row table of two entries. -/
theorem loadTile_depth_guard_witness :
    loadTile { TextureTile.new ⟨0, 0, 0⟩ with m_rawtile := plainImage 2 2 16 1, m_depth := 16 }
        true
      = LoadOutcome.fatal
          { TextureTile.new ⟨0, 0, 0⟩ with m_rawtile := plainImage 2 2 16 1, m_depth := 16 }
    ∧ loadTile { TextureTile.new ⟨0, 0, 0⟩ with m_rawtile := plainImage 2 2 32 1, m_depth := 32 }
        true
      = LoadOutcome.done
          { TextureTile.new ⟨0, 0, 0⟩ with
            m_rawtile := plainImage 2 2 32 1, m_depth := 32,
            jumpTable32 := some [⟨List.replicate 16 1, 0⟩, ⟨List.replicate 16 1, 8⟩] }
          [Signal.tileUpdateDone] :=
  ⟨(loadTile_depth_guard
      { TextureTile.new ⟨0, 0, 0⟩ with m_rawtile := plainImage 2 2 16 1, m_depth := 16 }
      true).2.1 (Or.inr (by decide)),
    ((loadTile_depth_guard
      { TextureTile.new ⟨0, 0, 0⟩ with m_rawtile := plainImage 2 2 32 1, m_depth := 32 }
      true).2.2.1 rfl rfl).trans (by decide!)⟩

/-- C8 (row table validity): the table of `jumpTableFromQImage8` has one entry
per scanline, entry `y` addresses byte `y * stride` of the buffer, and a pixel
read through the table is the pixel of direct stride-aware indexing, for any
stride.  The same holds for `jumpTableFromQImage32` for every stride that is
a multiple of 4: the builder advances by `stride / 4` units of four bytes, and
Qt keeps the scanlines of every image 32-bit aligned.  The image that
`loadRawTile` leaves in the tile, the only image the builders are called on,
has such a stride when the images decoded from storage and the image the tile
held before have one. -/
theorem jumpTable_valid (d : QImageData) :
    ((jumpTableFromQImage8 (some d)).length = d.height
      ∧ (∀ y, y < d.height → (jumpTableFromQImage8 (some d)).get? y
            = some { buffer := d.bits, offset := y * d.bytesPerLine })
      ∧ (∀ px py, py < d.height →
          readThroughTable8 (jumpTableFromQImage8 (some d)) px py
            = some (directPixel8 d px py)))
    ∧ (4 ∣ d.bytesPerLine →
      (jumpTableFromQImage32 (some d)).length = d.height
      ∧ (∀ y, y < d.height → (jumpTableFromQImage32 (some d)).get? y
            = some { buffer := d.bits, offset := y * d.bytesPerLine })
      ∧ (∀ px py, py < d.height →
          readThroughTable32 (jumpTableFromQImage32 (some d)) px py
            = some (directPixel32 d px py)))
    ∧ (∀ (hp : Helpers) (st : Storage) (textureLayer : GeoSceneTexture) (self : TextureTile)
        (level x y : Int),
        QImage.aligned self.m_rawtile → (∀ name, QImage.aligned (st.loadImage name)) →
        QImage.aligned (loadRawTile hp st textureLayer self level x y).tile.m_rawtile) := by
  refine ⟨⟨?_, ?_, ?_⟩, ?_, ?_⟩
  · simp [jumpTableFromQImage8, jumpTableLoop8_length, QImage.height]
  · intro y hy
    exact jumpTableFromQImage8_get d y hy
  · intro px py hpy
    unfold readThroughTable8
    rw [jumpTableFromQImage8_get d py hpy]
    simp [directPixel8, Ptr.addUChar]
  · intro hstride
    obtain ⟨k, hk⟩ := hstride
    have hoff : ∀ y : Nat, 4 * (y * (d.bytesPerLine / 4)) = y * d.bytesPerLine := by
      intro y
      rw [hk, Nat.mul_div_cancel_left k (by norm_num)]
      ring
    refine ⟨?_, ?_, ?_⟩
    · simp [jumpTableFromQImage32, jumpTableLoop32_length, QImage.height]
    · intro y hy
      rw [jumpTableFromQImage32_get d y hy, hoff]
    · intro px py hpy
      unfold readThroughTable32
      rw [jumpTableFromQImage32_get d py hpy, hoff]
      simp [directPixel32, Ptr.addUInt]
  · intro hp st textureLayer self level x y hstart hstorage
    exact loadRawTileLoop_aligned hp st textureLayer self.m_id self.m_rawtile level x y
      (level + 1).toNat hstart hstorage

/-- Witness of C8: a 32-bit image of two columns and two scanlines with a
padded stride of 12 bytes. -/
theorem jumpTable_valid_witness :
    jumpTableFromQImage32 (some ⟨2, 2, 32, 12, List.range 24⟩)
      = [⟨List.range 24, 0⟩, ⟨List.range 24, 12⟩]
    ∧ (jumpTableFromQImage32 (some ⟨2, 2, 32, 12, List.range 24⟩)).get? 1
      = some ⟨List.range 24, 1 * 12⟩
    ∧ readThroughTable32 (jumpTableFromQImage32 (some ⟨2, 2, 32, 12, List.range 24⟩)) 1 1
      = some (directPixel32 ⟨2, 2, 32, 12, List.range 24⟩ 1 1) :=
  ⟨by decide,
    ((jumpTable_valid ⟨2, 2, 32, 12, List.range 24⟩).2.1 (by decide)).2.1 1 (by decide),
    ((jumpTable_valid ⟨2, 2, 32, 12, List.range 24⟩).2.1 (by decide)).2.2 1 1 (by decide)⟩

set_option maxRecDepth 8000 in
/-- C9, the code at the failing input: the layer has the nominal tile size
256, the only tile on storage is the one of level 0 and it is 512 x 512, and
tile `(1, 0, 0)` is requested.  The image stored is scaled to `temptile.size()`,
the size of the ancestor, 512 x 512, not to the nominal 256 x 256. -/
theorem synthesized_size_failing_input :
    scenarioLayer.tileSize = 256
    ∧ candidateDecodes exampleHelpers (storageOf [("0/0/0", plainImage 512 512 32 7)])
        scenarioLayer 1 0 0 1 = false
    ∧ cropRect exampleHelpers 1 0 0 0 (plainImage 512 512 32 7) = ⟨0, 0, 255, 255⟩
    ∧ QImage.size (loadRawTile exampleHelpers (storageOf [("0/0/0", plainImage 512 512 32 7)])
        scenarioLayer (TextureTile.new ⟨1, 0, 0⟩) 1 0 0).tile.m_rawtile = ⟨512, 512⟩
    ∧ QImage.size (loadRawTile exampleHelpers (storageOf [("0/0/0", plainImage 512 512 32 7)])
        scenarioLayer (TextureTile.new ⟨1, 0, 0⟩) 1 0 0).tile.m_rawtile
      ≠ ⟨scenarioLayer.tileSize, scenarioLayer.tileSize⟩ := by
  refine ⟨?_, ?_, ?_, ?_, ?_⟩ <;> decide!

/-- C10, the code at the failing input: doubling counts `2 ^ L`, the valid
request `(9, 0, 0)`, and only the tile of level 0 on storage.  With the
256 x 256 image the window is half a pixel wide and high: the rectangle is
`(0, 0)` to `(-1, -1)`, of width 0 and height 0, a null rectangle, so `copy`
returns the whole image and the tile stores the whole level-0 image instead
of the requested area.  With a 256 x 512 image the rectangle has width 0 and
height 1: `copy` returns the null image, the tile holds no pixel data though
the candidate decodes, and `loadTile` ends fatally. -/
theorem degenerate_crop_failing_input :
    ((0 : Int) < exampleHelpers.levelToRow 9 ∧ (0 : Int) < exampleHelpers.levelToColumn 9)
    ∧ cropRect exampleHelpers 9 0 0 0 (plainImage 256 256 32 7) = ⟨0, 0, -1, -1⟩
    ∧ (cropRect exampleHelpers 9 0 0 0 (plainImage 256 256 32 7)).width = 0
    ∧ (cropRect exampleHelpers 9 0 0 0 (plainImage 256 256 32 7)).height = 0
    ∧ (loadRawTile exampleHelpers scenarioA scenarioLayer (TextureTile.new ⟨9, 0, 0⟩)
        9 0 0).tile.m_rawtile = plainImage 256 256 32 7
    ∧ cropRect exampleHelpers 9 0 0 0 (plainImage 256 512 32 7) = ⟨0, 0, -1, 0⟩
    ∧ (loadRawTile exampleHelpers (storageOf [("0/0/0", plainImage 256 512 32 7)])
        scenarioLayer (TextureTile.new ⟨9, 0, 0⟩) 9 0 0).tile.m_rawtile = none
    ∧ loadTile (loadRawTile exampleHelpers (storageOf [("0/0/0", plainImage 256 512 32 7)])
        scenarioLayer (TextureTile.new ⟨9, 0, 0⟩) 9 0 0).tile false
      = LoadOutcome.fatal (loadRawTile exampleHelpers
          (storageOf [("0/0/0", plainImage 256 512 32 7)])
          scenarioLayer (TextureTile.new ⟨9, 0, 0⟩) 9 0 0).tile := by
  have hname : relfilename exampleHelpers scenarioLayer 9 0 0 ((0 : Nat) : Int) = "0/0/0" := by
    decide!
  have hdecodes : candidateDecodes exampleHelpers scenarioA scenarioLayer 9 0 0 0 = true := by
    decide!
  have habove : ∀ j, 0 < j → j < 10 →
      candidateDecodes exampleHelpers scenarioA scenarioLayer 9 0 0 j = false := by
    intro j hj0 hj10
    interval_cases j <;> decide!
  have hloop := loadRawTileLoop_finest exampleHelpers scenarioA scenarioLayer ⟨9, 0, 0⟩ none
    9 0 0 10 0 (by decide) hdecodes habove
  have hplain : plainImage 256 256 32 7
      = some ⟨256, 256, 32, 1024, List.replicate (1024 * 256) 7⟩ := rfl
  have hrect : cropRect exampleHelpers 9 0 0 0 (plainImage 256 256 32 7) = ⟨0, 0, -1, -1⟩ := by
    decide!
  have hrect0 : cropRect exampleHelpers 9 0 0 0
      (some ⟨256, 256, 32, 1024, List.replicate (1024 * 256) 7⟩) = ⟨0, 0, -1, -1⟩ := by
    rw [← hplain]
    exact hrect
  have hwhole := cropAndScale_of_null_rect exampleHelpers 9 0 0 0
    ⟨256, 256, 32, 1024, List.replicate (1024 * 256) 7⟩ (by rw [hrect0]; decide) (by decide)
    (by decide)
  have h10 : ((9 : Int) + 1).toNat = 10 := by decide
  have hstored : (loadRawTile exampleHelpers scenarioA scenarioLayer (TextureTile.new ⟨9, 0, 0⟩)
      9 0 0).tile.m_rawtile = plainImage 256 256 32 7 := by
    have himg : scenarioA.loadImage (scenarioA.path "0/0/0")
        = some ⟨256, 256, 32, 1024, List.replicate (1024 * 256) 7⟩ := rfl
    simp only [loadRawTile, TextureTile.new, h10, hloop, hname, himg, hplain]
    rw [if_pos (by decide)]
    exact hwhole
  have hnone : (loadRawTile exampleHelpers (storageOf [("0/0/0", plainImage 256 512 32 7)])
      scenarioLayer (TextureTile.new ⟨9, 0, 0⟩) 9 0 0).tile.m_rawtile = none := by
    decide!
  refine ⟨⟨by decide, by decide⟩, hrect, ?_, ?_, hstored, ?_, hnone, ?_⟩
  · rw [hrect]; decide
  · rw [hrect]; decide
  · decide!
  · unfold loadTile
    rw [hnone]
    rfl

/-- C11 (idempotent re-request): running `loadRawTile` a second time with the
same arguments on an unchanged storage gives the result of the first run
again: the same tile (same pixel data, same depth), the same download
requests in the same order, and the same storage lookups. -/
theorem loadRawTile_idempotent (hp : Helpers) (st : Storage) (textureLayer : GeoSceneTexture)
    (self : TextureTile) (level x y : Int) :
    (loadRawTile hp st textureLayer (loadRawTile hp st textureLayer self level x y).tile
        level x y).tile.m_rawtile
      = (loadRawTile hp st textureLayer self level x y).tile.m_rawtile
    ∧ (loadRawTile hp st textureLayer (loadRawTile hp st textureLayer self level x y).tile
        level x y).tile.m_depth
      = (loadRawTile hp st textureLayer self level x y).tile.m_depth
    ∧ (loadRawTile hp st textureLayer (loadRawTile hp st textureLayer self level x y).tile
        level x y).emitted
      = (loadRawTile hp st textureLayer self level x y).emitted
    ∧ loadRawTile hp st textureLayer (loadRawTile hp st textureLayer self level x y).tile
        level x y
      = loadRawTile hp st textureLayer self level x y := by
  obtain ⟨h1, h2, h3⟩ := loadRawTileLoop_initial hp st textureLayer self.m_id self.m_rawtile
    (loadRawTileLoop hp st textureLayer self.m_id self.m_rawtile level x y
      (level + 1).toNat).m_rawtile level x y (level + 1).toNat
  have hraw : (loadRawTileLoop hp st textureLayer self.m_id
        (loadRawTileLoop hp st textureLayer self.m_id self.m_rawtile level x y
          (level + 1).toNat).m_rawtile level x y (level + 1).toNat).m_rawtile
      = (loadRawTileLoop hp st textureLayer self.m_id self.m_rawtile level x y
          (level + 1).toNat).m_rawtile := by
    rcases h3 with ⟨_, h⟩ | h
    · exact h
    · exact h
  have hall : loadRawTile hp st textureLayer (loadRawTile hp st textureLayer self level x y).tile
        level x y
      = loadRawTile hp st textureLayer self level x y := by
    simp only [loadRawTile, hraw, h1, h2]
  refine ⟨?_, ?_, ?_, hall⟩
  · rw [hall]
  · rw [hall]
  · rw [hall]

/-- An instance of C11, Scenario A: the second run stores the same synthesized
image and repeats the two download requests. -/
theorem loadRawTile_idempotent_witness :
    (loadRawTile exampleHelpers scenarioA scenarioLayer
        (loadRawTile exampleHelpers scenarioA scenarioLayer (TextureTile.new ⟨2, 3, 1⟩)
          2 3 1).tile 2 3 1).emitted
      = [Signal.downloadTile "2/3/1" "2:3:1", Signal.downloadTile "1/1/0" "2:3:1"] :=
  ((loadRawTile_idempotent exampleHelpers scenarioA scenarioLayer (TextureTile.new ⟨2, 3, 1⟩)
    2 3 1).2.2.1).trans (by decide!)

/-- C12, counterexample: the tile holds the 32-bit row table built from its
image, all bytes 3.  The file now decodes to an image with bytes 5 and
`loadRawTile` is called again: the pixel data is replaced and not empty, and
the tile still holds the old row table, whose entries address the previous
buffer and not the new one. -/
theorem reload_keeps_stale_table_counterexample :
    loadedTile32.jumpTable32 = some (jumpTableFromQImage32 loadedTile32.m_rawtile)
    ∧ (loadRawTile exampleHelpers (storageOf [("0/0/0", plainImage 1 2 32 5)]) scenarioLayer
        loadedTile32 0 0 0).tile.m_rawtile = plainImage 1 2 32 5
    ∧ (loadRawTile exampleHelpers (storageOf [("0/0/0", plainImage 1 2 32 5)]) scenarioLayer
        loadedTile32 0 0 0).tile.jumpTable32
      = some [⟨List.replicate 8 3, 0⟩, ⟨List.replicate 8 3, 4⟩]
    ∧ addressesBufferOf [⟨List.replicate 8 3, 0⟩, ⟨List.replicate 8 3, 4⟩]
        loadedTile32.m_rawtile = true
    ∧ addressesBufferOf [⟨List.replicate 8 3, 0⟩, ⟨List.replicate 8 3, 4⟩]
        (loadRawTile exampleHelpers (storageOf [("0/0/0", plainImage 1 2 32 5)]) scenarioLayer
          loadedTile32 0 0 0).tile.m_rawtile = false := by
  refine ⟨?_, ?_, ?_, ?_, ?_⟩ <;> decide!

/-- C12, amended: `loadRawTile` leaves both row tables of the tile exactly as
they were, also when it replaces the pixel data.  It is the following
`loadTile` that, when it returns, has replaced the row table of the recorded
depth by the one built from the new pixel data, every entry of which
addresses the new buffer. -/
theorem loadRawTile_keeps_row_tables (hp : Helpers) (st : Storage)
    (textureLayer : GeoSceneTexture) (self : TextureTile) (level x y : Int) :
    (loadRawTile hp st textureLayer self level x y).tile.jumpTable8 = self.jumpTable8
    ∧ (loadRawTile hp st textureLayer self level x y).tile.jumpTable32 = self.jumpTable32
    ∧ ∀ requestTileUpdate tile emitted,
        loadTile (loadRawTile hp st textureLayer self level x y).tile requestTileUpdate
          = LoadOutcome.done tile emitted →
        tile.m_rawtile = (loadRawTile hp st textureLayer self level x y).tile.m_rawtile
        ∧ (tile.m_depth = 32 →
            tile.jumpTable32 = some (jumpTableFromQImage32 tile.m_rawtile)
            ∧ addressesBufferOf (jumpTableFromQImage32 tile.m_rawtile) tile.m_rawtile = true)
        ∧ (tile.m_depth = 8 →
            tile.jumpTable8 = some (jumpTableFromQImage8 tile.m_rawtile)
            ∧ addressesBufferOf (jumpTableFromQImage8 tile.m_rawtile) tile.m_rawtile = true) := by
  refine ⟨rfl, rfl, ?_⟩
  intro requestTileUpdate tile emitted hdone
  generalize (loadRawTile hp st textureLayer self level x y).tile = loaded at hdone
  unfold loadTile at hdone
  by_cases hnull : QImage.isNull loaded.m_rawtile = true
  · simp [hnull] at hdone
  · by_cases h32 : loaded.m_depth = 32
    · simp only [hnull, h32, if_true, Bool.false_eq_true, if_false, LoadOutcome.done.injEq] at hdone
      obtain ⟨rfl, _⟩ := hdone
      refine ⟨rfl, fun _ => ⟨rfl, addressesBufferOf_jumpTable32 _⟩, fun h8 => ?_⟩
      simp only [h32] at h8
      omega
    · by_cases h8 : loaded.m_depth = 8
      · simp only [hnull, h32, h8, if_true, Bool.false_eq_true, if_false,
          LoadOutcome.done.injEq] at hdone
        obtain ⟨rfl, _⟩ := hdone
        refine ⟨rfl, fun h => ?_, fun _ => ⟨rfl, addressesBufferOf_jumpTable8 _⟩⟩
        simp at h
      · simp [hnull, h32, h8] at hdone

/-- Witness of the amended C12: after the reload of the counterexample the
following `loadTile` builds the 32-bit row table from the new buffer. -/
theorem loadRawTile_keeps_row_tables_witness :
    (loadTile (loadRawTile exampleHelpers (storageOf [("0/0/0", plainImage 1 2 32 5)])
        scenarioLayer loadedTile32 0 0 0).tile true).tile.jumpTable32
      = some [⟨List.replicate 8 5, 0⟩, ⟨List.replicate 8 5, 4⟩] :=
  (((loadRawTile_keeps_row_tables exampleHelpers (storageOf [("0/0/0", plainImage 1 2 32 5)])
      scenarioLayer loadedTile32 0 0 0).2.2 true
      (loadTile (loadRawTile exampleHelpers (storageOf [("0/0/0", plainImage 1 2 32 5)])
        scenarioLayer loadedTile32 0 0 0).tile true).tile [Signal.tileUpdateDone]
      (by decide!)).2.1 (by decide!)).1.trans
    (by decide!)

/-- C13, the code at the failing input: the tile holds the 32-bit row table of
its first image; the file then decodes to an 8-bit image, and `loadRawTile` and
`loadTile` run again.  `loadTile` returns, having built the 8-bit table from
the new buffer, and the tile still holds the 32-bit table, whose entries
address the buffer of the first image. -/
theorem depth_change_failing_input :
    loadedTile32.m_depth = 32
    ∧ loadedTile32.jumpTable32 = some [⟨List.replicate 8 3, 0⟩, ⟨List.replicate 8 3, 4⟩]
    ∧ loadTile (loadRawTile exampleHelpers (storageOf [("0/0/0", plainImage 1 2 8 5)])
        scenarioLayer loadedTile32 0 0 0).tile false
      = LoadOutcome.done
          { jumpTable8 := some [⟨List.replicate 8 5, 0⟩, ⟨List.replicate 8 5, 4⟩]
            jumpTable32 := some [⟨List.replicate 8 3, 0⟩, ⟨List.replicate 8 3, 4⟩]
            m_id := ⟨0, 0, 0⟩
            m_rawtile := plainImage 1 2 8 5
            m_depth := 8
            m_used := true } []
    ∧ addressesBufferOf [⟨List.replicate 8 3, 0⟩, ⟨List.replicate 8 3, 4⟩]
        (plainImage 1 2 8 5) = false := by
  refine ⟨?_, ?_, ?_, ?_⟩ <;> decide!

/-- C14 (usage flag is only ever set): a newly constructed tile has
`m_used = false`; after every call of `loadRawTile` it is `true`; `loadTile`
leaves it as it is; so once `true` it stays `true` over every sequence of
operations.  No operation branches on it: with another value of the flag
`loadRawTile` gives the same result, and `loadTile` ends the same way with the
same tables, image, depth and signals, the flag itself carried along. -/
theorem m_used_only_set (hp : Helpers) :
    (∀ id, (TextureTile.new id).m_used = false)
    ∧ (∀ st textureLayer self level x y,
        (loadRawTile hp st textureLayer self level x y).tile.m_used = true)
    ∧ (∀ self requestTileUpdate,
        (loadTile self requestTileUpdate).tile.m_used = self.m_used)
    ∧ (∀ ops self, self.m_used = true → (runOps hp self ops).m_used = true)
    ∧ (∀ ops op self, (runOps hp self ops).m_used = true →
        (runOps hp self (ops ++ [op])).m_used = true)
    ∧ (∀ st textureLayer (self : TextureTile) level x y used,
        loadRawTile hp st textureLayer { self with m_used := used } level x y
          = loadRawTile hp st textureLayer self level x y)
    ∧ (∀ (self : TextureTile) requestTileUpdate used,
        loadTile { self with m_used := used } requestTileUpdate
          = match loadTile self requestTileUpdate with
            | LoadOutcome.fatal tile => LoadOutcome.fatal { tile with m_used := used }
            | LoadOutcome.done tile emitted =>
              LoadOutcome.done { tile with m_used := used } emitted) := by
  refine ⟨fun _ => rfl, fun _ _ _ _ _ _ => rfl, loadTile_m_used, runOps_m_used hp, ?_,
    fun _ _ _ _ _ _ _ => rfl, ?_⟩
  · intro ops op self hused
    simp only [runOps, List.foldl_append, List.foldl_cons, List.foldl_nil]
    exact apply_m_used hp _ op hused
  · intro self requestTileUpdate used
    unfold loadTile
    by_cases hnull : QImage.isNull self.m_rawtile = true
    · simp [hnull]
    · by_cases h32 : self.m_depth = 32
      · simp [hnull, h32]
      · by_cases h8 : self.m_depth = 8
        · simp [hnull, h8]
        · simp [hnull, h32, h8]

/-- An instance of C14: a new tile is unused; after `loadRawTile`, a fatal
`loadTile`, and a second `loadRawTile` on an empty storage it is used. -/
theorem m_used_only_set_witness :
    (TextureTile.new ⟨0, 0, 0⟩).m_used = false
    ∧ (runOps exampleHelpers (TextureTile.new ⟨0, 0, 0⟩)
        [TileOp.loadRawTile (storageOf []) scenarioLayer 0 0 0, TileOp.loadTile true,
          TileOp.loadRawTile (storageOf []) scenarioLayer 0 0 0]).m_used = true :=
  ⟨(m_used_only_set exampleHelpers).1 ⟨0, 0, 0⟩,
    (m_used_only_set exampleHelpers).2.2.2.1
      [TileOp.loadTile true, TileOp.loadRawTile (storageOf []) scenarioLayer 0 0 0]
      (loadRawTile exampleHelpers (storageOf []) scenarioLayer (TextureTile.new ⟨0, 0, 0⟩)
        0 0 0).tile
      ((m_used_only_set exampleHelpers).2.1 (storageOf []) scenarioLayer
        (TextureTile.new ⟨0, 0, 0⟩) 0 0 0)⟩

/-- C15 (the cascade stops at the finest available level): when some level
from `0` to `level` has a candidate that exists and decodes, there is a
greatest such level `i`; the pixel data stored comes from the candidate of
level `i` (verbatim for `i = level`, cropped and scaled otherwise); the storage
lookups are those of the levels from `level` down to `i`, one each, and the
download requests are for levels among these: nothing is looked up or
requested for a level below `i`. -/
theorem loadRawTile_stops_at_finest (hp : Helpers) (st : Storage)
    (textureLayer : GeoSceneTexture) (self : TextureTile) (level x y : Int)
    (hhit : ∃ k : Nat, (k : Int) ≤ level
      ∧ candidateDecodes hp st textureLayer level x y k = true) :
    ∃ i : Nat, (i : Int) ≤ level
      ∧ candidateDecodes hp st textureLayer level x y i = true
      ∧ (∀ j : Nat, i < j → (j : Int) ≤ level →
          candidateDecodes hp st textureLayer level x y j = false)
      ∧ (loadRawTile hp st textureLayer self level x y).tile.m_rawtile
          = (if level ≠ (i : Int) then
              cropAndScale hp level x y i
                (st.loadImage (st.path (relfilename hp textureLayer level x y i)))
            else st.loadImage (st.path (relfilename hp textureLayer level x y i)))
      ∧ (loadRawTile hp st textureLayer self level x y).lookups
          = (levelsDownTo (level + 1).toNat i).map
              (fun j => st.path (relfilename hp textureLayer level x y j))
      ∧ (loadRawTile hp st textureLayer self level x y).emitted
          = ((levelsDownTo (level + 1).toNat i).filter
                (fun j => !candidateExists hp st textureLayer level x y j)).map
              (fun j => Signal.downloadTile (relfilename hp textureLayer level x y j)
                (hp.tileIdToString self.m_id))
      ∧ (∀ j, j ∈ levelsDownTo (level + 1).toNat i ↔ i ≤ j ∧ (j : Int) ≤ level) := by
  obtain ⟨k, hk, hkd⟩ := hhit
  have hkn : k ≤ level.toNat := by omega
  have hspec : candidateDecodes hp st textureLayer level x y
      (Nat.findGreatest (fun j => candidateDecodes hp st textureLayer level x y j = true)
        level.toNat) = true :=
    Nat.findGreatest_spec (P := fun j => candidateDecodes hp st textureLayer level x y j = true)
      hkn hkd
  have hle := Nat.findGreatest_le
    (P := fun j => candidateDecodes hp st textureLayer level x y j = true) level.toNat
  have hgreatest : ∀ j : Nat,
      Nat.findGreatest (fun j => candidateDecodes hp st textureLayer level x y j = true)
        level.toNat < j → j ≤ level.toNat →
      candidateDecodes hp st textureLayer level x y j = false := by
    intro j hj hjn
    have h := Nat.findGreatest_is_greatest
      (P := fun j => candidateDecodes hp st textureLayer level x y j = true) hj hjn
    simpa using h
  generalize Nat.findGreatest (fun j => candidateDecodes hp st textureLayer level x y j = true)
    level.toNat = i at hspec hle hgreatest
  have hloop := loadRawTileLoop_finest hp st textureLayer self.m_id self.m_rawtile level x y
    (level + 1).toNat i (by omega) hspec (fun j hj hjn => hgreatest j hj (by omega))
  refine ⟨i, by omega, hspec, fun j hj hjl => hgreatest j hj (by omega), ?_, ?_, ?_, ?_⟩
  · simp only [loadRawTile, hloop]
  · simp only [loadRawTile, hloop]
  · simp only [loadRawTile, hloop]
  · intro j
    simp only [levelsDownTo, List.mem_filter, List.mem_reverse, List.mem_range,
      decide_eq_true_eq]
    constructor
    · rintro ⟨h1, h2⟩
      exact ⟨h2, by omega⟩
    · rintro ⟨h1, h2⟩
      exact ⟨by omega, h1⟩

/-- Witness of C15: tile `(2, 3, 1)` with the tiles of level 1 and of level 0 on
storage: the cascade looks up `2/3/1` and `1/1/0`, requests `2/3/1`, takes the
image from level 1 and never looks at level 0. -/
theorem loadRawTile_stops_at_finest_witness :
    (∃ i : Nat, (i : Int) ≤ 2
      ∧ (loadRawTile exampleHelpers
            (storageOf [("1/1/0", plainImage 4 4 8 1), ("0/0/0", plainImage 4 4 8 2)])
            scenarioLayer (TextureTile.new ⟨2, 3, 1⟩) 2 3 1).lookups
          = (levelsDownTo ((2 : Int) + 1).toNat i).map
              (fun j => (storageOf [("1/1/0", plainImage 4 4 8 1),
                ("0/0/0", plainImage 4 4 8 2)]).path
                  (relfilename exampleHelpers scenarioLayer 2 3 1 j)))
    ∧ (loadRawTile exampleHelpers
          (storageOf [("1/1/0", plainImage 4 4 8 1), ("0/0/0", plainImage 4 4 8 2)])
          scenarioLayer (TextureTile.new ⟨2, 3, 1⟩) 2 3 1).lookups = ["2/3/1", "1/1/0"]
    ∧ (loadRawTile exampleHelpers
          (storageOf [("1/1/0", plainImage 4 4 8 1), ("0/0/0", plainImage 4 4 8 2)])
          scenarioLayer (TextureTile.new ⟨2, 3, 1⟩) 2 3 1).emitted
        = [Signal.downloadTile "2/3/1" "2:3:1"]
    ∧ (loadRawTile exampleHelpers
          (storageOf [("1/1/0", plainImage 4 4 8 1), ("0/0/0", plainImage 4 4 8 2)])
          scenarioLayer (TextureTile.new ⟨2, 3, 1⟩) 2 3 1).tile.m_rawtile
        = cropAndScale exampleHelpers 2 3 1 1 (plainImage 4 4 8 1) := by
  obtain ⟨i, hi, _, _, _, hlookups, _, _⟩ := loadRawTile_stops_at_finest exampleHelpers
    (storageOf [("1/1/0", plainImage 4 4 8 1), ("0/0/0", plainImage 4 4 8 2)])
    scenarioLayer (TextureTile.new ⟨2, 3, 1⟩) 2 3 1 ⟨1, by decide, by decide!⟩
  refine ⟨⟨i, hi, hlookups⟩, ?_, ?_, ?_⟩ <;> decide!

/-- C16, the code at the failing input: doubling counts `2 ^ L`, the valid
request `(9, 0, 0)` and the 256 x 256 image of level 0.  The candidate `(0, 0)`
is in range, but the rectangle computed from the image is `(0, 0)` to
`(-1, -1)`: its right and bottom edges, at -1, are not between 0 and
`W - 1 = 255`, the rectangle is inverted (`right < left`, `bottom < top`) and
does not lie inside the image. -/
theorem crop_out_of_range_failing_input :
    ((0 : Int) ≤ 0 ∧ (0 : Int) < exampleHelpers.levelToRow 9
      ∧ (0 : Int) < exampleHelpers.levelToColumn 9)
    ∧ (toInt (testx1 exampleHelpers 9 0 0) = 0 ∧ toInt (testy1 exampleHelpers 9 0 0) = 0)
    ∧ (cropRect exampleHelpers 9 0 0 0 (plainImage 256 256 32 7)).left = 0
    ∧ (cropRect exampleHelpers 9 0 0 0 (plainImage 256 256 32 7)).right = -1
    ∧ (cropRect exampleHelpers 9 0 0 0 (plainImage 256 256 32 7)).top = 0
    ∧ (cropRect exampleHelpers 9 0 0 0 (plainImage 256 256 32 7)).bottom = -1
    ∧ ¬ (0 ≤ (cropRect exampleHelpers 9 0 0 0 (plainImage 256 256 32 7)).right
        ∧ (cropRect exampleHelpers 9 0 0 0 (plainImage 256 256 32 7)).right ≤ 256 - 1)
    ∧ ¬ (0 ≤ (cropRect exampleHelpers 9 0 0 0 (plainImage 256 256 32 7)).bottom
        ∧ (cropRect exampleHelpers 9 0 0 0 (plainImage 256 256 32 7)).bottom ≤ 256 - 1)
    ∧ (cropRect exampleHelpers 9 0 0 0 (plainImage 256 256 32 7)).right
        < (cropRect exampleHelpers 9 0 0 0 (plainImage 256 256 32 7)).left := by
  have hrect : cropRect exampleHelpers 9 0 0 0 (plainImage 256 256 32 7) = ⟨0, 0, -1, -1⟩ := by
    decide!
  refine ⟨by decide, ⟨by decide!, by decide!⟩, ?_, ?_, ?_, ?_, ?_, ?_, ?_⟩ <;>
    rw [hrect] <;> decide

end Marble
